import Mathlib

/-!
Verification of the multi-backend dispatch, streaming aggregation and
judging/consensus engine of the Consensus repository.

The development shallowly embeds the two API route handlers and their helpers:

* `src/src/app/api/committee/route.ts` — the streaming fan-out endpoint
  (`committeePOST`, `processModel`, `extractLines`, `processLine`);
* `app/api/judge/route.ts` (the judging route) — judge-set resolution, prompt
  building, verdict parsing, vote and score aggregation
  (`judgeRoutePOST`, `buildJudgePrompt`, `parseJudgeResponse`,
  `parseConsensusResponse`, `aggregateVerdict`);
* `src/src/lib/criteria.ts` — `formatCriteriaForPrompt`;
* the judging trigger in `src/src/app/page.tsx` (`triggerJudgeEvaluation`).

JavaScript-specific behaviour is modelled explicitly: `Option` fields stand for
possibly-`undefined` values, truthiness of strings treats `""` as falsy, JS
objects and `Map`s are insertion-ordered association lists, and `JSON.parse`
of free-form model output is abstracted by its outcome (the parsed projections
or a parse failure), since the judging code only branches on that outcome.
Network effects are supplied as oracle parameters: a pure function standing for
the outcome of each upstream call.
-/

set_option maxHeartbeats 1000000

namespace Consensus

/-! ### JavaScript semantics helpers -/

/-- Truthiness of a JS string-or-undefined value: `undefined`, `null` and the
empty string are falsy; every other string is truthy. -/
def jsTruthyS : Option String → Bool
  | some s => s ≠ ""
  | none => false

/-- JS `a || b` on string-or-undefined values: `a` when truthy, else `b`. -/
def jsOrS (a b : Option String) : Option String :=
  if jsTruthyS a then a else b

/-- JS `Array.from(new Set(xs))`: removes duplicates keeping the first
occurrence of each element, preserving order. -/
def jsSetDedup : List String → List String
  | [] => []
  | x :: xs => x :: jsSetDedup (xs.filter (fun y => y ≠ x))
termination_by l => l.length
decreasing_by
  simp only [List.length_cons]
  exact Nat.lt_succ_of_le (List.length_filter_le _ _)

/-- JS `Math.round(t / c)` for an integer total `t` and a count `c`:
`Math.round x = ⌊x + 1/2⌋` and, for `c > 0`,
`⌊t/c + 1/2⌋ = (2*t + c) / (2*c)` with floor (Euclidean) integer division,
which is what `/` on `Int` denotes.  The agreement with `round ((t : ℚ) / c)`
is proved in `jsRoundDiv_eq_round`. -/
def jsRoundDiv (t : Int) (c : Nat) : Int :=
  (2 * t + (c : Int)) / (2 * (c : Int))

/-- JS single-character `split` on an explicit character list: splits at every
occurrence of `sep`; always returns at least one (possibly empty) piece. -/
def splitCharList (sep : Char) : List Char → List (List Char)
  | [] => [[]]
  | c :: cs =>
    if c = sep then
      [] :: splitCharList sep cs
    else
      match splitCharList sep cs with
      | [] => [[c]]
      | r :: rs => (c :: r) :: rs

/-- JS `s.split(sep)` for a single-character separator. -/
def jsSplit (sep : Char) (s : String) : List String :=
  (splitCharList sep s.data).map String.mk

/-- Characters stripped by JS `String.prototype.trim`. -/
def isJsSpace (c : Char) : Bool :=
  c = ' ' || c = '\t' || c = '\n' || c = '\r' || c = '\x0b' || c = '\x0c'

/-- JS `s.trim()`. -/
def jsTrim (s : String) : String :=
  String.mk (((s.data.dropWhile isJsSpace).reverse.dropWhile isJsSpace).reverse)

/-- JS `s.startsWith(pre)`. -/
def jsStartsWith (s : String) (pre : String) : Bool :=
  s.data.take pre.data.length == pre.data

/-- JS `s.slice(n)` for `n ≥ 0`. -/
def jsDrop (n : Nat) (s : String) : String :=
  String.mk (s.data.drop n)

/-! ### Data model (lib/types.ts and the judge route) -/

/-- One model response handed to the judge route (`ResponseInfo` in the judge
route): identifier, display name and final text. -/
structure ResponseInfo where
  modelId : String
  modelName : String
  content : String
deriving DecidableEq

/-- Per-backend score block (`ModelScore` in lib/types.ts). -/
structure ScoreEntry where
  modelId : String
  score : Int
  strengths : List String
  weaknesses : List String
deriving DecidableEq

/-- One judge's surviving vote (`JudgeVote` in lib/types.ts). -/
structure JudgeVote where
  judgeModelId : String
  judgeModelName : String
  winnerModelId : String
  reasoning : String
  scores : List ScoreEntry
deriving DecidableEq

/-- The four judging modes (`JudgingMode` in lib/types.ts). -/
inductive JudgingMode where
  | judge
  | committee
  | executive
  | consensus
deriving DecidableEq

/-- A single weighted criterion (lib/criteria.ts `JudgingCriterion`). -/
structure JudgingCriterion where
  name : String
  weight : Int
  description : String
deriving DecidableEq

/-- A named rubric (lib/criteria.ts `JudgingCriteria`). -/
structure JudgingCriteria where
  id : String
  name : String
  description : String
  criteria : List JudgingCriterion
deriving DecidableEq

/-- lib/criteria.ts `formatCriteriaForPrompt`: one bullet line per criterion,
joined with newlines. -/
def formatCriteriaForPrompt (c : JudgingCriteria) : String :=
  String.intercalate "\n" (c.criteria.map (fun cr =>
    "- **" ++ cr.name ++ "** (importance: " ++ toString cr.weight ++ "/5): " ++
      cr.description))

/-! ### Verdict Parser (judge route, `parseJudgeResponse`) -/

/-- Relevant projections of a JSON object produced by a judge model.
A `none` field models an absent, `null` or otherwise falsy-undefined value;
`scores` is `some` exactly when the parsed object carries a (possibly empty)
score array, which is always truthy in JS. -/
structure JudgeJson where
  winnerModelId : Option String
  winnerModelName : Option String
  reasoning : Option String
  scores : Option (List ScoreEntry)
deriving DecidableEq

/-- A judge's raw output text, abstracted by its parse behaviour — the only
way the route inspects it.  `direct` is the outcome of `JSON.parse` on the
whole text (`none` models a parse exception); `fenced` is the fenced
code-block search (`none` = the regex does not match, `some none` = a block
matches but its contents fail to parse, `some (some p)` = its contents parse
to `p`). -/
structure RawJudgeText where
  direct : Option JudgeJson
  fenced : Option (Option JudgeJson)
deriving DecidableEq

/-- The verdict structure returned by the parser (`SingleJudgeVerdict`).
The TypeScript interface declares all fields as present, but the fenced-block
path copies unvalidated parsed fields, so at runtime they may be `undefined`;
`Option` records that honestly. -/
structure SingleJudgeVerdict where
  winnerModelId : Option String
  winnerModelName : Option String
  reasoning : Option String
  scores : List ScoreEntry
deriving DecidableEq

/-- The structure validation applied after a direct parse:
`parsed.winnerModelId && parsed.reasoning && parsed.scores`. -/
def validJudgeJson (p : JudgeJson) : Bool :=
  jsTruthyS p.winnerModelId && jsTruthyS p.reasoning && p.scores.isSome

/-- JS `responses.find(r => r.modelId === w)?.modelName`. -/
def findRespName (responses : List ResponseInfo) (w : Option String) : Option String :=
  match w with
  | some m => (responses.find? (fun r => r.modelId = m)).map (fun r => r.modelName)
  | none => none

/-- The winner display name
`parsed.winnerModelName || responses.find(...)?.modelName || parsed.winnerModelId`. -/
def winnerNameOf (p : JudgeJson) (responses : List ResponseInfo) : Option String :=
  jsOrS p.winnerModelName (jsOrS (findRespName responses p.winnerModelId) p.winnerModelId)

/-- The deterministic fallback verdict: first response as winner, a fixed
reasoning string, and a neutral score of 50 with empty lists per response.
On an empty response list the source evaluates `responses[0].modelId`, i.e.
reads a property of `undefined`, raising a `TypeError`; `none` models that
exception. -/
def fallbackVerdict (responses : List ResponseInfo) : Option SingleJudgeVerdict :=
  match responses with
  | [] => none
  | r0 :: _ =>
    some { winnerModelId := some r0.modelId
           winnerModelName := some r0.modelName
           reasoning := some "Unable to parse judge response. Defaulting to first response."
           scores := responses.map (fun r => ⟨r.modelId, 50, [], []⟩) }

/-- The judge route's `parseJudgeResponse`: try a direct parse (validated),
on a parse exception try a fenced code block (unvalidated), otherwise fall
back.  `none` models an uncaught exception escaping the function. -/
def parseJudgeResponse (content : RawJudgeText) (responses : List ResponseInfo) :
    Option SingleJudgeVerdict :=
  match content.direct with
  | some parsed =>
    if validJudgeJson parsed then
      some { winnerModelId := parsed.winnerModelId
             winnerModelName := winnerNameOf parsed responses
             reasoning := parsed.reasoning
             scores := parsed.scores.getD [] }
    else
      fallbackVerdict responses
  | none =>
    match content.fenced with
    | some (some parsed) =>
      some { winnerModelId := parsed.winnerModelId
             winnerModelName := winnerNameOf parsed responses
             reasoning := parsed.reasoning
             scores := parsed.scores.getD [] }
    | _ => fallbackVerdict responses

/-! ### Consensus synthesis parsing (judge route, `parseConsensusResponse`) -/

/-- One attribution entry (`ConsensusAttribution` in lib/types.ts). -/
structure ConsensusAttribution where
  modelId : String
  modelName : String
  contribution : String
deriving DecidableEq

/-- One key point (`ConsensusKeyPoint` in lib/types.ts). -/
structure ConsensusKeyPoint where
  point : String
  sourceModelIds : List String
deriving DecidableEq

/-- Relevant projections of a JSON object produced by the synthesizer model;
`none` models an absent or falsy field, array fields are truthy whenever
present. -/
structure ConsensusJson where
  synthesizedResponse : Option String
  attributions : Option (List ConsensusAttribution)
  keyPoints : Option (List ConsensusKeyPoint)
  scores : Option (List ScoreEntry)
deriving DecidableEq

/-- The synthesizer's raw output text abstracted by its parse behaviour,
exactly as `RawJudgeText`. -/
structure RawConsensusText where
  direct : Option ConsensusJson
  fenced : Option (Option ConsensusJson)
deriving DecidableEq

/-- The result of `parseConsensusResponse` (`ParsedConsensusData`). -/
structure ParsedConsensusData where
  synthesizedResponse : String
  attributions : List ConsensusAttribution
  keyPoints : List ConsensusKeyPoint
  scores : List ScoreEntry
deriving DecidableEq

/-- The consensus fallback: a fixed message, one default attribution per
response and a neutral score of 50 per response. -/
def consensusFallback (responses : List ResponseInfo) : ParsedConsensusData :=
  { synthesizedResponse :=
      "Unable to synthesize responses. Please see individual model responses above."
    attributions := responses.map (fun r =>
      ⟨r.modelId, r.modelName, "Response included in synthesis attempt"⟩)
    keyPoints := []
    scores := responses.map (fun r => ⟨r.modelId, 50, [], []⟩) }

/-- The judge route's `parseConsensusResponse`: a direct parse is accepted when
`synthesizedResponse` is truthy, with per-field defaults substituted only for
absent (falsy) fields; on a parse exception a fenced block is accepted with
empty-valued defaults; otherwise the fallback is returned. -/
def parseConsensusResponse (content : RawConsensusText) (responses : List ResponseInfo) :
    ParsedConsensusData :=
  match content.direct with
  | some parsed =>
    if jsTruthyS parsed.synthesizedResponse then
      { synthesizedResponse := parsed.synthesizedResponse.getD ""
        attributions := parsed.attributions.getD (responses.map (fun r =>
          ⟨r.modelId, r.modelName, "Contributed to the synthesis"⟩))
        keyPoints := parsed.keyPoints.getD []
        scores := parsed.scores.getD (responses.map (fun r => ⟨r.modelId, 70, [], []⟩)) }
    else
      consensusFallback responses
  | none =>
    match content.fenced with
    | some (some parsed) =>
      { synthesizedResponse := parsed.synthesizedResponse.getD ""
        attributions := parsed.attributions.getD []
        keyPoints := parsed.keyPoints.getD []
        scores := parsed.scores.getD [] }
    | _ => consensusFallback responses

/-- The `ConsensusResult` passed through to the response (lib/types.ts). -/
structure ConsensusResult where
  synthesizedResponse : String
  attributions : List ConsensusAttribution
  keyPoints : List ConsensusKeyPoint
deriving DecidableEq

/-- The `ConsensusVerdict` built by the route's consensus branch: empty winner
fields, a fixed reasoning template over the number of responses, the parsed
scores, and the parsed consensus data passed through unchanged. -/
structure ConsensusVerdict where
  winnerModelId : String
  winnerModelName : String
  reasoning : String
  scores : List ScoreEntry
  consensusResult : ConsensusResult
deriving DecidableEq

/-- The consensus branch of the judge route after a successful synthesizer
call: wraps `parseConsensusResponse` output into a `ConsensusVerdict`. -/
def consensusVerdictOf (content : RawConsensusText) (responses : List ResponseInfo) :
    ConsensusVerdict :=
  let d := parseConsensusResponse content responses
  { winnerModelId := ""
    winnerModelName := ""
    reasoning := "Synthesized response combining insights from " ++
      toString responses.length ++ " models."
    scores := d.scores
    consensusResult := ⟨d.synthesizedResponse, d.attributions, d.keyPoints⟩ }

/-! ### Judge prompt building (judge route, `buildJudgePrompt`) -/

/-- One labelled response section of the judge prompt. -/
def responseSection (i : Nat) (r : ResponseInfo) : String :=
  "\n### Response " ++ toString (i + 1) ++ ": " ++ r.modelName ++ " (" ++
    r.modelId ++ ")\n" ++ r.content ++ "\n"

/-- The list of labelled responses, separated by `---` lines. -/
def responsesText (responses : List ResponseInfo) : String :=
  String.intercalate "\n---\n" (responses.enum.map (fun p => responseSection p.1 p.2))

/-- The comma-separated criteria names interpolated into the template. -/
def criteriaNames (c : JudgingCriteria) : String :=
  String.intercalate ", " (c.criteria.map (fun cr => cr.name))

/-- The judge route's `buildJudgePrompt` instruction template, verbatim (brace
and apostrophe characters escaped). -/
def buildJudgePrompt (originalPrompt : String) (responses : List ResponseInfo)
    (criteria : JudgingCriteria) : String :=
  "You are an expert judge evaluating AI model responses. Your task is to analyze the following responses to a user prompt and determine which is best.\n\n## Original User Prompt\n"
    ++ originalPrompt
    ++ "\n\n## Responses to Evaluate\n"
    ++ responsesText responses
    ++ "\n\n## Evaluation Criteria: "
    ++ criteria.name
    ++ "\n"
    ++ criteria.description
    ++ "\n\nEvaluate each response based on these criteria (higher weight = more important):\n"
    ++ formatCriteriaForPrompt criteria
    ++ "\n\n## Your Task\nScore each response on the criteria above, then determine the overall winner. Weight your evaluation according to the importance scores.\n\nProvide your evaluation as a JSON object with this exact structure:\n\x7b\n  \"winnerModelId\": \"the model ID of the best response\",\n  \"winnerModelName\": \"the display name of the winner\",\n  \"reasoning\": \"A 2-3 sentence explanation of why this response won, specifically referencing how it performed on "
    ++ criteriaNames criteria
    ++ "\",\n  \"scores\": [\n    \x7b\n      \"modelId\": \"model ID\",\n      \"score\": 85,\n      \"strengths\": [\"strength 1 relating to criteria\", \"strength 2\"],\n      \"weaknesses\": [\"weakness 1 relating to criteria\"]\n    \x7d\n  ]\n\x7d\n\nThe score should be 0-100, weighted by the criteria importance. Be specific - reference actual content from the responses and how it relates to the evaluation criteria.\n\nScoring penalties - apply these strictly:\n- Responses that admit knowledge cutoff limitations preventing them from answering (e.g., \"I only have knowledge up to 2023\") should score 30 or below - they effectively didn\x27t answer the question\n- Responses that deflect or refuse to engage with the topic should score very low (20 or below)\n- Responses that provide outdated information without acknowledging limitations should be penalized\n- A response that says \"I can\x27t answer this\" is not a valid answer and should never win"

/-! ### Judge-set resolution and dispatch (judge route `POST`) -/

/-- The evaluated set for one judge: in committee mode the judge's own
response is filtered out, in every other mode the full set is used. -/
def evaluatedFor (mode : JudgingMode) (responses : List ResponseInfo)
    (judgeId : String) : List ResponseInfo :=
  if mode = JudgingMode.committee then
    responses.filter (fun r => r.modelId ≠ judgeId)
  else responses

/-- One judge call actually issued: the judge identifier, its evaluated set
and the prompt built from that set. -/
structure JudgeDispatch where
  judgeId : String
  evaluated : List ResponseInfo
  prompt : String
deriving DecidableEq

/-- The list of judge calls issued by the route: one per resolved judge,
except that a judge whose evaluated set has fewer than 2 responses is skipped
(its promise resolves to `null` with no network call). -/
def judgeDispatches (mode : JudgingMode) (originalPrompt : String)
    (responses : List ResponseInfo) (criteria : JudgingCriteria)
    (judges : List String) : List JudgeDispatch :=
  judges.filterMap (fun judgeId =>
    let ev := evaluatedFor mode responses judgeId
    if ev.length < 2 then none
    else some ⟨judgeId, ev, buildJudgePrompt originalPrompt ev criteria⟩)

/-- Judge-set resolution: committee mode takes every responding model;
executive mode takes the caller-supplied list when truthy and non-empty;
everything else requires the single configured judge (a falsy judge id is a
400 error). -/
def resolveJudges (mode : JudgingMode) (responses : List ResponseInfo)
    (judgeModelId : Option String) (judgeModelIds : Option (List String)) :
    Except (Nat × String) (List String) :=
  if mode = JudgingMode.committee then
    Except.ok (responses.map (fun r => r.modelId))
  else if mode = JudgingMode.executive ∧ 0 < (judgeModelIds.getD []).length then
    Except.ok (judgeModelIds.getD [])
  else if jsTruthyS judgeModelId then
    Except.ok [judgeModelId.getD ""]
  else
    Except.error (400, "Judge model required")

/-- The judge display name attached to a vote:
`judgeModelNames[judgeId] || judgeId.split('/').pop() || judgeId`. -/
def judgeDisplayName (judgeModelNames : List (String × String)) (judgeId : String) :
    String :=
  (jsOrS (lookupName judgeModelNames judgeId)
    (jsOrS (some ((jsSplit '/' judgeId).getLastD "")) (some judgeId))).getD judgeId
where
  /-- JS object read `judgeModelNames[judgeId]` on an insertion-ordered
  association list. -/
  lookupName : List (String × String) → String → Option String
    | [], _ => none
    | (k, v) :: rest, b => if k = b then some v else lookupName rest b

/-- Construction of one judge's vote from its parsed verdict (route).
The fenced parse path can leave `winnerModelId`/`reasoning` undefined at
runtime despite the declared type; the embedding collapses that to `""`,
which no claim here depends on. -/
def mkJudgeVote (judgeModelNames : List (String × String)) (judgeId : String)
    (verdict : SingleJudgeVerdict) : JudgeVote :=
  { judgeModelId := judgeId
    judgeModelName := judgeDisplayName judgeModelNames judgeId
    winnerModelId := verdict.winnerModelId.getD ""
    reasoning := verdict.reasoning.getD ""
    scores := verdict.scores }

/-! ### Vote and score aggregation (judge route `POST`) -/

/-- One `voteCount[w] = (voteCount[w] || 0) + 1` update on the
insertion-ordered association list modelling the JS object. -/
def bumpCount : List (String × Nat) → String → List (String × Nat)
  | [], w => [(w, 1)]
  | (k, n) :: rest, w =>
    if k = w then (k, n + 1) :: rest else (k, n) :: bumpCount rest w

/-- The `voteCount` object: one increment per surviving vote, in vote order. -/
def voteCountOf (votes : List JudgeVote) : List (String × Nat) :=
  votes.foldl (fun acc v => bumpCount acc v.winnerModelId) []

/-- JS read `voteCount[b] || 0`. -/
def getCount : List (String × Nat) → String → Nat
  | [], _ => 0
  | (k, n) :: rest, b => if k = b then n else getCount rest b

/-- Winner selection: iterate the entries in insertion order keeping the first
entry that strictly exceeds the running maximum, starting from `("", 0)`. -/
def selectWinner (entries : List (String × Nat)) : String × Nat :=
  entries.foldl (fun acc e => if e.2 > acc.2 then e else acc) ("", 0)

/-- Number of surviving votes naming `b` as winner (specification-side
counting function used to state properties of the tally). -/
def countVotes (votes : List JudgeVote) (b : String) : Nat :=
  (votes.filter (fun v => v.winnerModelId = b)).length

/-- Accumulator slot of the score `Map`. -/
structure ScoreAcc where
  total : Int
  count : Nat
  strengths : List String
  weaknesses : List String
deriving DecidableEq

/-- The default slot `{ total: 0, count: 0, strengths: [], weaknesses: [] }`. -/
def emptyAcc : ScoreAcc := ⟨0, 0, [], []⟩

/-- Folding one score entry into a slot. -/
def addScoreEntry (d : ScoreAcc) (s : ScoreEntry) : ScoreAcc :=
  ⟨d.total + s.score, d.count + 1, d.strengths ++ s.strengths,
    d.weaknesses ++ s.weaknesses⟩

/-- JS `Map.prototype.set`: replaces an existing key in place, else appends. -/
def mapSet : List (String × ScoreAcc) → String → ScoreAcc → List (String × ScoreAcc)
  | [], k, v => [(k, v)]
  | (k0, v0) :: rest, k, v =>
    if k0 = k then (k, v) :: rest else (k0, v0) :: mapSet rest k v

/-- JS `Map.prototype.get`. -/
def mapGet : List (String × ScoreAcc) → String → Option ScoreAcc
  | [], _ => none
  | (k0, v0) :: rest, k => if k0 = k then some v0 else mapGet rest k

/-- One iteration of the inner `vote.scores.forEach` loop. -/
def scoreStep (m : List (String × ScoreAcc)) (s : ScoreEntry) :
    List (String × ScoreAcc) :=
  mapSet m s.modelId (addScoreEntry ((mapGet m s.modelId).getD emptyAcc) s)

/-- The `scoreMap` after folding every surviving vote's scores in order. -/
def scoreMapOf (votes : List JudgeVote) : List (String × ScoreAcc) :=
  votes.foldl (fun m v => v.scores.foldl scoreStep m) []

/-- The aggregated per-backend scores: rounded average, and deduplicated
strengths/weaknesses capped at 3. -/
def aggregatedScores (votes : List JudgeVote) : List ScoreEntry :=
  (scoreMapOf votes).map (fun e =>
    ⟨e.1, jsRoundDiv e.2.total e.2.count,
      (jsSetDedup e.2.strengths).take 3,
      (jsSetDedup e.2.weaknesses).take 3⟩)

/-- All score entries naming backend `b`, across all surviving votes in order
(specification-side counterpart of the score `Map` slot for `b`). -/
def entriesFor (votes : List JudgeVote) (b : String) : List ScoreEntry :=
  (votes.flatMap (fun v => v.scores)).filter (fun s => s.modelId = b)

/-- The `MultiJudgeVerdict` returned for non-consensus modes. -/
structure MultiJudgeVerdict where
  winnerModelId : String
  winnerModelName : String
  reasoning : String
  scores : List ScoreEntry
  judgingMode : JudgingMode
  votes : List JudgeVote
  voteCount : List (String × Nat)
deriving DecidableEq

/-- Aggregation of the surviving votes into the final verdict (judge route):
vote tally, winner selection, winner display name, score aggregation and the
reasoning summary. -/
def aggregateVerdict (mode : JudgingMode) (responses : List ResponseInfo)
    (judges : List String) (votes : List JudgeVote) : MultiJudgeVerdict :=
  let vc := voteCountOf votes
  let w := selectWinner vc
  let winnerName :=
    (jsOrS ((responses.find? (fun r => r.modelId = w.1)).map (fun r => r.modelName))
      (some w.1)).getD w.1
  let reasoning :=
    if judges.length = 1 then
      ((votes.head?).map (fun v => v.reasoning)).getD ""
    else
      winnerName ++ " won with " ++ toString w.2 ++ "/" ++ toString votes.length ++
        " votes. " ++
        String.intercalate " "
          (((votes.filter (fun v => v.winnerModelId = w.1)).map
            (fun v => v.reasoning)).take 2)
  { winnerModelId := w.1
    winnerModelName := winnerName
    reasoning := reasoning
    scores := aggregatedScores votes
    judgingMode := mode
    votes := votes
    voteCount := vc }

/-- Outcome of the judge route. -/
inductive RouteOutcome where
  | httpError (status : Nat) (message : String)
  | verdictOut (v : MultiJudgeVerdict)
  | consensusOut (c : ConsensusVerdict)
deriving DecidableEq

/-- The judge route's `POST` handler.  Network effects are oracles:
`synthOf` is the synthesizer call outcome for consensus mode (`none` models a
failed call or empty content, yielding the 500 error path), and `voteOf` maps
each issued judge dispatch to its surviving vote (`none` models a failed call,
missing content, or a parse exception — all absorbed into a `null` vote).
Judges skipped before dispatch contribute no element of `judgeDispatches`,
matching their `null` promise results. -/
def judgeRoutePOST (prompt : String) (responses : List ResponseInfo)
    (mode : JudgingMode) (judgeModelId : Option String)
    (judgeModelIds : Option (List String)) (criteria : JudgingCriteria)
    (synthOf : Option RawConsensusText)
    (voteOf : JudgeDispatch → Option JudgeVote) : RouteOutcome :=
  if prompt = "" ∨ responses.length < 2 then
    RouteOutcome.httpError 400 "Prompt and at least 2 responses required"
  else if mode = JudgingMode.consensus then
    if jsTruthyS judgeModelId then
      match synthOf with
      | some content => RouteOutcome.consensusOut (consensusVerdictOf content responses)
      | none => RouteOutcome.httpError 500 "Consensus synthesis failed"
    else
      RouteOutcome.httpError 400 "Judge model required for consensus mode"
  else
    match resolveJudges mode responses judgeModelId judgeModelIds with
    | Except.error e => RouteOutcome.httpError e.1 e.2
    | Except.ok judges =>
      let dispatches := judgeDispatches mode prompt responses criteria judges
      let votes := dispatches.filterMap voteOf
      if votes.length = 0 then
        RouteOutcome.httpError 500 "No judges were able to evaluate the responses"
      else
        RouteOutcome.verdictOut (aggregateVerdict mode responses judges votes)

/-- The judge calls the route issues for a given request: empty whenever the
precondition check fails, in consensus mode (which issues a single synthesizer
call, not judge dispatches) or when judge resolution errors out. -/
def routeDispatches (prompt : String) (responses : List ResponseInfo)
    (mode : JudgingMode) (judgeModelId : Option String)
    (judgeModelIds : Option (List String)) (criteria : JudgingCriteria) :
    List JudgeDispatch :=
  if prompt = "" ∨ responses.length < 2 then []
  else if mode = JudgingMode.consensus then []
  else
    match resolveJudges mode responses judgeModelId judgeModelIds with
    | Except.error _ => []
    | Except.ok judges => judgeDispatches mode prompt responses criteria judges

/-! ### Judging trigger (page.tsx `triggerJudgeEvaluation`) -/

/-- One assembled streaming response as kept by the page
(`ModelResponse` in lib/types.ts; the timing fields are omitted as the
judging trigger never reads them). -/
structure ModelResponse where
  modelId : String
  modelName : String
  content : String
  isStreaming : Bool
  isComplete : Bool
  error : Option String
deriving DecidableEq

/-- The page's usability filter:
`r.isComplete && !r.error && r.content.trim()`. -/
def usableResponse (r : ModelResponse) : Bool :=
  r.isComplete && !(jsTruthyS r.error) && jsTrim r.content ≠ ""

/-- The `completedResponses` payload built from the usable responses. -/
def completedResponses (rs : List ModelResponse) : List ResponseInfo :=
  (rs.filter usableResponse).map (fun r => ⟨r.modelId, r.modelName, r.content⟩)

/-- What the judging trigger does: either set a structured error verdict with
no network request, or issue the judge request. -/
inductive JudgeTrigger where
  | verdictError (reasoning : String) (errorMessage : String)
  | request (prompt : String) (responses : List ResponseInfo) (mode : JudgingMode)
deriving DecidableEq

/-- The page's `triggerJudgeEvaluation`: filter to usable responses, short
circuit with a structured error verdict when fewer than two remain (before any
mode-specific work), otherwise issue the judge request. -/
def triggerJudgeEvaluation (fullPrompt : String) (rs : List ModelResponse)
    (mode : JudgingMode) : JudgeTrigger :=
  let completed := completedResponses rs
  if completed.length < 2 then
    JudgeTrigger.verdictError "Not enough successful responses to evaluate."
      "Fewer than 2 models responded successfully."
  else
    JudgeTrigger.request (jsTrim fullPrompt) completed mode

/-! ### Committee streaming endpoint (app/api/committee/route.ts) -/

/-- One event written to the merged SSE stream. -/
structure StreamEvent where
  modelId : String
  content : Option String
  errorMessage : Option String
  done : Bool
deriving DecidableEq

/-- A token-delta event `{ modelId, content, done: false }`. -/
def contentEvent (modelId text : String) : StreamEvent := ⟨modelId, some text, none, false⟩

/-- The terminal success event `{ modelId, content: '', done: true }`. -/
def doneEvent (modelId : String) : StreamEvent := ⟨modelId, some "", none, true⟩

/-- A terminal error event `{ modelId, error, done: true }`. -/
def errorEvent (modelId msg : String) : StreamEvent := ⟨modelId, none, some msg, true⟩

/-- Outcome of one upstream completion call, as observed by the route:
a transport exception, a non-2xx status with its body text, a missing
response body, or a streamed body delivering `chunks` (in order) followed by
either normal end-of-stream or a mid-read exception. -/
inductive UpstreamOutcome where
  | fetchError (message : String)
  | httpError (status : Nat) (body : String)
  | noBody
  | okStream (chunks : List String) (readError : Option String)
deriving DecidableEq

/-- Processing of one extracted line: skip blank and non-`data:` lines, write
the terminal event on the `[DONE]` sentinel, otherwise parse the JSON payload
and forward a non-empty content delta.  `parseDelta` abstracts
`JSON.parse(data).choices?.[0]?.delta?.content` (`none` = malformed JSON,
which is skipped; `some ""` = no content, also skipped). -/
def processLine (parseDelta : String → Option String) (modelId : String)
    (line : String) : List StreamEvent :=
  let trimmed := jsTrim line
  if trimmed = "" then []
  else if !(jsStartsWith trimmed "data: ") then []
  else
    let data := jsDrop 6 trimmed
    if data = "[DONE]" then [doneEvent modelId]
    else
      match parseDelta data with
      | some c => if c = "" then [] else [contentEvent modelId c]
      | none => []

/-- The route's line framing: append each chunk to the carried buffer, split
on newlines, process all complete lines and carry the last piece forward.
The final buffer contents are discarded when the upstream stream ends. -/
def extractLines : List String → String → List String
  | [], _ => []
  | c :: cs, buffer =>
    let parts := jsSplit '\n' (buffer ++ c)
    parts.dropLast ++ extractLines cs (parts.getLastD "")

/-- All events one backend's read loop writes for its streamed chunks. -/
def processChunks (parseDelta : String → Option String) (modelId : String)
    (chunks : List String) : List StreamEvent :=
  (extractLines chunks "").flatMap (processLine parseDelta modelId)

/-- All events one backend's branch writes: a single terminal error event for
pre-stream failures, and for a streamed body the line-loop events followed by
a terminal error event iff a mid-read exception occurred. -/
def processModel (parseDelta : String → Option String) (modelId : String) :
    UpstreamOutcome → List StreamEvent
  | UpstreamOutcome.fetchError msg => [errorEvent modelId msg]
  | UpstreamOutcome.httpError status body =>
    [errorEvent modelId ("API error: " ++ toString status ++ " - " ++ body)]
  | UpstreamOutcome.noBody => [errorEvent modelId "No response body"]
  | UpstreamOutcome.okStream chunks readError =>
    processChunks parseDelta modelId chunks ++
      (match readError with
       | some msg => [errorEvent modelId msg]
       | none => [])

/-- The merged stream.  The branches run concurrently and their writes
interleave nondeterministically; every event is tagged with its backend, so
the subsequence of events of any one backend — all the claims below count
per-backend events — is the same in every interleaving, and the concatenation
is a sound representative. -/
def committeeStream (parseDelta : String → Option String)
    (upstream : String → UpstreamOutcome) (models : List String) :
    List StreamEvent :=
  models.flatMap (fun m => processModel parseDelta m (upstream m))

/-- Outcome of the committee route's `POST` handler. -/
inductive CommitteeOutcome where
  | httpError (status : Nat) (message : String)
  | stream (events : List StreamEvent)
deriving DecidableEq

/-- The committee route's `POST` handler: validate the request, then merge
one branch per requested model. -/
def committeePOST (parseDelta : String → Option String)
    (upstream : String → UpstreamOutcome) (prompt : String)
    (models : List String) : CommitteeOutcome :=
  if prompt = "" ∨ models.length < 2 then
    CommitteeOutcome.httpError 400 "Prompt and at least 2 models required"
  else
    CommitteeOutcome.stream (committeeStream parseDelta upstream models)

/-- The events attributed to backend `b` on the merged stream. -/
def eventsFor (b : String) (events : List StreamEvent) : List StreamEvent :=
  events.filter (fun e => e.modelId = b)

/-- Number of terminal (`done = true`) events in an event list. -/
def terminalCount (events : List StreamEvent) : Nat :=
  (events.filter (fun e => e.done)).length

/-- Whether an extracted line is the `[DONE]` sentinel data line (the only
kind of line the read loop answers with a terminal event). -/
def isDoneLine (line : String) : Bool :=
  jsTrim line ≠ "" && jsStartsWith (jsTrim line) "data: " &&
    jsDrop 6 (jsTrim line) = "[DONE]"

/-! ### Theorems -/

/-- C2.  The claim quantifies over every list of evaluated backends, but on an
empty list the fallback path of the parser evaluates `responses[0].modelId`,
reading a property of `undefined`: a `TypeError` escapes (modelled by `none`).
So the parser does raise for unparseable text with no evaluated backends. -/
theorem parser_throws_on_empty_backends :
    parseJudgeResponse ⟨none, none⟩ [] = none := rfl

/-- C2 (amended).  For every raw judge text and every non-empty list of
evaluated backends the parser returns a verdict and never raises, and on text
that neither parses directly nor contains a parseable fenced JSON block it
returns the deterministic fallback: first backend as winner, the fixed
could-not-parse reasoning, and one neutral score of 50 with empty
strength/weakness lists per evaluated backend. -/
theorem parser_total_and_fallback (content : RawJudgeText)
    (responses : List ResponseInfo) (h : responses ≠ []) :
    (parseJudgeResponse content responses).isSome = true ∧
    (content.direct = none →
      content.fenced = none ∨ content.fenced = some none →
      ∀ r0 rs, responses = r0 :: rs →
        parseJudgeResponse content responses =
          some { winnerModelId := some r0.modelId
                 winnerModelName := some r0.modelName
                 reasoning := some "Unable to parse judge response. Defaulting to first response."
                 scores := responses.map (fun r => ⟨r.modelId, 50, [], []⟩) }) := by
  obtain ⟨r0, rs, rfl⟩ : ∃ r0 rs, responses = r0 :: rs := by
    cases responses with
    | nil => exact absurd rfl h
    | cons a t => exact ⟨a, t, rfl⟩
  constructor
  · unfold parseJudgeResponse
    cases hd : content.direct with
    | some parsed =>
      by_cases hv : validJudgeJson parsed
      · simp [hv]
      · simp [hv, fallbackVerdict]
    | none =>
      cases hf : content.fenced with
      | some inner =>
        cases inner with
        | some parsed => simp
        | none => simp [fallbackVerdict]
      | none => simp [fallbackVerdict]
  · intro hd hf r0' rs' heq
    unfold parseJudgeResponse
    rw [hd]
    rcases hf with hf | hf <;>
      simp only [hf, fallbackVerdict] <;>
      simp only [List.cons.injEq] at heq <;>
      simp [heq.1]

/-- C2 witness: the fallback at garbage text and backends `[X, Y]`. -/
theorem parser_total_and_fallback_witness :
    ([⟨"X", "X name", "x text"⟩, ⟨"Y", "Y name", "y text"⟩] : List ResponseInfo) ≠ [] ∧
    ((parseJudgeResponse ⟨none, none⟩
        [⟨"X", "X name", "x text"⟩, ⟨"Y", "Y name", "y text"⟩]).isSome = true ∧
      ((⟨none, none⟩ : RawJudgeText).direct = none →
        (⟨none, none⟩ : RawJudgeText).fenced = none ∨
          (⟨none, none⟩ : RawJudgeText).fenced = some none →
        ∀ r0 rs,
          ([⟨"X", "X name", "x text"⟩, ⟨"Y", "Y name", "y text"⟩] :
              List ResponseInfo) = r0 :: rs →
          parseJudgeResponse ⟨none, none⟩
              [⟨"X", "X name", "x text"⟩, ⟨"Y", "Y name", "y text"⟩] =
            some { winnerModelId := some r0.modelId
                   winnerModelName := some r0.modelName
                   reasoning := some "Unable to parse judge response. Defaulting to first response."
                   scores := ([⟨"X", "X name", "x text"⟩, ⟨"Y", "Y name", "y text"⟩] :
                     List ResponseInfo).map (fun r => ⟨r.modelId, 50, [], []⟩) })) :=
  ⟨by decide, parser_total_and_fallback ⟨none, none⟩ _ (by decide)⟩

/-- C7.  A fenced code block that parses as JSON is returned without any field
validation: with evaluated backends `[X, Y]` and a fenced block parsing to an
object lacking every required field, the parser returns a verdict whose fields
are all `undefined` (and an empty score list) — not the deterministic
fallback the claim requires. -/
theorem fenced_invalid_not_fallback :
    parseJudgeResponse ⟨none, some (some ⟨none, none, none, none⟩)⟩
        [⟨"X", "X name", "x text"⟩, ⟨"Y", "Y name", "y text"⟩] =
      some ⟨none, none, none, []⟩ ∧
    parseJudgeResponse ⟨none, some (some ⟨none, none, none, none⟩)⟩
        [⟨"X", "X name", "x text"⟩, ⟨"Y", "Y name", "y text"⟩] ≠
      fallbackVerdict [⟨"X", "X name", "x text"⟩, ⟨"Y", "Y name", "y text"⟩] := by
  constructor
  · rfl
  · decide

/-- C7 (amended).  The deterministic fallback is produced when the text
parses directly as JSON but lacks a required field (and when both parse
attempts fail, see `parser_total_and_fallback`); a fenced-block parse success,
by contrast, is passed through unvalidated, its missing fields `undefined`
and its missing score array defaulted to `[]`. -/
theorem direct_invalid_falls_back (p : JudgeJson) (f : Option (Option JudgeJson))
    (r0 : ResponseInfo) (rs : List ResponseInfo)
    (hinvalid : validJudgeJson p = false) :
    parseJudgeResponse ⟨some p, f⟩ (r0 :: rs) =
      some { winnerModelId := some r0.modelId
             winnerModelName := some r0.modelName
             reasoning := some "Unable to parse judge response. Defaulting to first response."
             scores := (r0 :: rs).map (fun r => ⟨r.modelId, 50, [], []⟩) } ∧
    (∀ q, parseJudgeResponse ⟨none, some (some q)⟩ (r0 :: rs) =
      some { winnerModelId := q.winnerModelId
             winnerModelName := winnerNameOf q (r0 :: rs)
             reasoning := q.reasoning
             scores := q.scores.getD [] }) := by
  constructor
  · unfold parseJudgeResponse
    simp [hinvalid, fallbackVerdict]
  · intro q
    rfl

/-- C7 witness: a directly-parsed object missing its reasoning field falls
back deterministically. -/
theorem direct_invalid_falls_back_witness :
    validJudgeJson ⟨some "X", none, none, some []⟩ = false ∧
    (parseJudgeResponse ⟨some ⟨some "X", none, none, some []⟩, none⟩
        [⟨"X", "X name", "x text"⟩, ⟨"Y", "Y name", "y text"⟩] =
      some { winnerModelId := some "X"
             winnerModelName := some "X name"
             reasoning := some "Unable to parse judge response. Defaulting to first response."
             scores := ([⟨"X", "X name", "x text"⟩, ⟨"Y", "Y name", "y text"⟩] :
               List ResponseInfo).map (fun r => ⟨r.modelId, 50, [], []⟩) } ∧
    (∀ q, parseJudgeResponse ⟨none, some (some q)⟩
        [⟨"X", "X name", "x text"⟩, ⟨"Y", "Y name", "y text"⟩] =
      some { winnerModelId := q.winnerModelId
             winnerModelName :=
               winnerNameOf q [⟨"X", "X name", "x text"⟩, ⟨"Y", "Y name", "y text"⟩]
             reasoning := q.reasoning
             scores := q.scores.getD [] })) :=
  ⟨by decide,
    direct_invalid_falls_back ⟨some "X", none, none, some []⟩ none
      ⟨"X", "X name", "x text"⟩ [⟨"Y", "Y name", "y text"⟩] (by decide)⟩

/-- C8.  A synthesizer output whose attributions cover only one of two
evaluated backends is passed through unchanged: backend B receives no default
attribution entry — it is dropped, contradicting the claim. -/
theorem consensus_partial_attributions_dropped :
    (consensusVerdictOf
        ⟨some ⟨some "synthesized", some [⟨"A", "A name", "added detail"⟩], none, none⟩,
          none⟩
        [⟨"A", "A name", "a text"⟩, ⟨"B", "B name", "b text"⟩]).consensusResult.attributions =
      [⟨"A", "A name", "added detail"⟩] ∧
    ¬ ∃ a ∈ (consensusVerdictOf
        ⟨some ⟨some "synthesized", some [⟨"A", "A name", "added detail"⟩], none, none⟩,
          none⟩
        [⟨"A", "A name", "a text"⟩, ⟨"B", "B name", "b text"⟩]).consensusResult.attributions,
      a.modelId = "B" := by
  constructor
  · rfl
  · decide

/-- C8 (amended).  Default attribution entries (one per evaluated backend) are
substituted only when the parsed output carries no attributions field at all;
an attributions array covering any subset of the backends — even a strict
one — is passed through unchanged, so omitted backends receive no entry. -/
theorem consensus_attributions_passthrough (s : String) (hs : s ≠ "")
    (atts : Option (List ConsensusAttribution))
    (kps : Option (List ConsensusKeyPoint)) (scs : Option (List ScoreEntry))
    (fenced : Option (Option ConsensusJson)) (responses : List ResponseInfo) :
    (atts = none →
      (consensusVerdictOf ⟨some ⟨some s, atts, kps, scs⟩, fenced⟩
          responses).consensusResult.attributions =
        responses.map (fun r => ⟨r.modelId, r.modelName, "Contributed to the synthesis"⟩)) ∧
    (∀ l, atts = some l →
      (consensusVerdictOf ⟨some ⟨some s, atts, kps, scs⟩, fenced⟩
          responses).consensusResult.attributions = l) := by
  constructor
  · intro hnone
    subst hnone
    simp [consensusVerdictOf, parseConsensusResponse, jsTruthyS, hs]
  · intro l hsome
    subst hsome
    simp [consensusVerdictOf, parseConsensusResponse, jsTruthyS, hs]

/-- C8 witness: with the attributions field absent, both evaluated backends
receive a default entry. -/
theorem consensus_attributions_passthrough_witness :
    ("synthesized" : String) ≠ "" ∧
    ((none = (none : Option (List ConsensusAttribution)) →
      (consensusVerdictOf ⟨some ⟨some "synthesized", none, none, none⟩, none⟩
          [⟨"A", "A name", "a text"⟩, ⟨"B", "B name", "b text"⟩]).consensusResult.attributions =
        ([⟨"A", "A name", "a text"⟩, ⟨"B", "B name", "b text"⟩] :
          List ResponseInfo).map
            (fun r => ⟨r.modelId, r.modelName, "Contributed to the synthesis"⟩)) ∧
    (∀ l, (none : Option (List ConsensusAttribution)) = some l →
      (consensusVerdictOf ⟨some ⟨some "synthesized", none, none, none⟩, none⟩
          [⟨"A", "A name", "a text"⟩, ⟨"B", "B name", "b text"⟩]).consensusResult.attributions = l)) :=
  ⟨by decide,
    consensus_attributions_passthrough "synthesized" (by decide) none none none none
      [⟨"A", "A name", "a text"⟩, ⟨"B", "B name", "b text"⟩]⟩

/-- C10.  With no display-name mapping, a slash-separated judge identifier
degrades to its last path segment, not to the identifier itself: the vote for
judge `openai/gpt-4` carries the display name `gpt-4`. -/
theorem judge_name_not_identifier :
    (mkJudgeVote [] "openai/gpt-4"
        ⟨some "A", some "A name", some "reasoning", []⟩).judgeModelName = "gpt-4" ∧
    judgeDisplayName [] "openai/gpt-4" ≠ "openai/gpt-4" := by
  constructor
  · rfl
  · decide

/-- C10 (amended).  When the label-lookup map supplies no display name, the
judge's vote display name degrades to the last slash-separated segment of the
identifier, falling back to the identifier itself only when that segment is
empty; in particular the identifier itself is used exactly when splitting on
the separator leaves the identifier whole. -/
theorem judge_name_degrades_to_segment (names : List (String × String))
    (judgeId : String) (verdict : SingleJudgeVerdict)
    (h : judgeDisplayName.lookupName names judgeId = none) :
    (mkJudgeVote names judgeId verdict).judgeModelName =
      (if (jsSplit '/' judgeId).getLastD "" = "" then judgeId
       else (jsSplit '/' judgeId).getLastD "") ∧
    (jsSplit '/' judgeId = [judgeId] →
      (mkJudgeVote names judgeId verdict).judgeModelName = judgeId) := by
  have hname : (mkJudgeVote names judgeId verdict).judgeModelName =
      judgeDisplayName names judgeId := rfl
  constructor
  · rw [hname]
    unfold judgeDisplayName
    rw [h]
    generalize (jsSplit '/' judgeId).getLastD "" = seg
    by_cases hseg : seg = ""
    · simp [jsOrS, jsTruthyS, hseg]
    · simp [jsOrS, jsTruthyS, hseg]
  · intro hsplit
    rw [hname]
    unfold judgeDisplayName
    rw [h, hsplit]
    by_cases hid : judgeId = ""
    · simp [jsOrS, jsTruthyS, hid]
    · simp [jsOrS, jsTruthyS, hid]

/-- C10 witness: a slash-free identifier with no mapping degrades to itself. -/
theorem judge_name_degrades_to_segment_witness :
    judgeDisplayName.lookupName [("other", "Other Name")] "gpt4" = none ∧
    ((mkJudgeVote [("other", "Other Name")] "gpt4"
        ⟨some "A", some "A name", some "reasoning", []⟩).judgeModelName =
      (if (jsSplit '/' "gpt4").getLastD "" = "" then "gpt4"
       else (jsSplit '/' "gpt4").getLastD "") ∧
    (jsSplit '/' "gpt4" = ["gpt4"] →
      (mkJudgeVote [("other", "Other Name")] "gpt4"
        ⟨some "A", some "A name", some "reasoning", []⟩).judgeModelName = "gpt4")) :=
  ⟨by decide,
    judge_name_degrades_to_segment [("other", "Other Name")] "gpt4"
      ⟨some "A", some "A name", some "reasoning", []⟩ (by decide)⟩

/-- Filtering with a stronger predicate keeps at most as many elements. -/
theorem length_filter_implies {α : Type} (p q : α → Bool)
    (h : ∀ a, p a = true → q a = true) :
    ∀ l : List α, (l.filter p).length ≤ (l.filter q).length := by
  intro l
  induction l with
  | nil => simp
  | cons a t ih =>
    by_cases hp : p a = true
    · rw [List.filter_cons_of_pos hp, List.filter_cons_of_pos (h a hp)]
      simpa using ih
    · rw [List.filter_cons_of_neg (by simpa using hp)]
      by_cases hq : q a = true
      · rw [List.filter_cons_of_pos hq]
        exact ih.trans (Nat.le_succ _)
      · rw [List.filter_cons_of_neg (by simpa using hq)]
        exact ih

/-- Committee-mode evaluated set, as an equation usable for rewriting. -/
theorem evaluatedFor_committee (responses : List ResponseInfo) (j : String) :
    evaluatedFor JudgingMode.committee responses j =
      responses.filter (fun r => r.modelId ≠ j) := by
  simp [evaluatedFor]

/-- A two-element list filtered by a predicate failing on one of the two
keeps fewer than two elements. -/
theorem filter_two_without_self {α : Type} (p : α → Bool) (a b : α)
    (h : p a = false ∨ p b = false) :
    (([a, b] : List α).filter p).length < 2 := by
  rcases h with h | h
  · rw [List.filter_cons_of_neg (by simp [h])]
    have hle : (([b] : List α).filter p).length ≤ 1 := by
      simpa using List.length_filter_le p [b]
    omega
  · by_cases hpa : p a = true
    · rw [List.filter_cons_of_pos hpa, List.filter_cons_of_neg (by simp [h]),
        List.filter_nil]
      simp only [List.length_cons, List.length_nil]
      omega
    · rw [List.filter_cons_of_neg (by simpa using hpa),
        List.filter_cons_of_neg (by simp [h]), List.filter_nil]
      simp only [List.length_nil]
      omega

/-- C5.  In committee mode, every issued judge dispatch evaluates exactly the
full response set with that judge's own response removed, and its prompt is
built from exactly that set; conversely every judge of the judge list whose
self-excluded set keeps at least two responses is dispatched with that set.
Each judge's own filter touches only its own dispatch, so only that judge's
prompt is affected. -/
theorem committee_excludes_own_response (mode : JudgingMode) (prompt : String)
    (responses : List ResponseInfo) (criteria : JudgingCriteria)
    (judges : List String) (hmode : mode = JudgingMode.committee) :
    (∀ d ∈ judgeDispatches mode prompt responses criteria judges,
      d.evaluated = responses.filter (fun r => r.modelId ≠ d.judgeId) ∧
      d.prompt =
        buildJudgePrompt prompt (responses.filter (fun r => r.modelId ≠ d.judgeId))
          criteria ∧
      (∀ r ∈ d.evaluated, r.modelId ≠ d.judgeId) ∧
      (∀ r ∈ responses, r.modelId ≠ d.judgeId → r ∈ d.evaluated)) ∧
    (∀ j ∈ judges,
      2 ≤ (responses.filter (fun r => r.modelId ≠ j)).length →
      (⟨j, responses.filter (fun r => r.modelId ≠ j),
        buildJudgePrompt prompt (responses.filter (fun r => r.modelId ≠ j)) criteria⟩ :
        JudgeDispatch) ∈ judgeDispatches mode prompt responses criteria judges) := by
  subst hmode
  constructor
  · intro d hd
    simp only [judgeDispatches, List.mem_filterMap, evaluatedFor_committee] at hd
    obtain ⟨j, _, heq⟩ := hd
    by_cases hlt : (responses.filter (fun r => r.modelId ≠ j)).length < 2
    · rw [if_pos hlt] at heq
      cases heq
    · rw [if_neg hlt] at heq
      injection heq with heq
      subst heq
      refine ⟨rfl, rfl, ?_, ?_⟩
      · intro r hr
        simpa using (List.mem_filter.mp hr).2
      · intro r hr hne
        exact List.mem_filter.mpr ⟨hr, by simpa using hne⟩
  · intro j hj hlen
    simp only [judgeDispatches, List.mem_filterMap, evaluatedFor_committee]
    exact ⟨j, hj, by rw [if_neg (by omega)]⟩

/-- C5 witness: with responding backends A, B, C, judge A is dispatched on
exactly B and C, with the prompt built from that two-element set. -/
theorem committee_excludes_own_response_witness :
    (⟨"A", [⟨"B", "B name", "b text"⟩, ⟨"C", "C name", "c text"⟩],
      buildJudgePrompt "the prompt"
        [⟨"B", "B name", "b text"⟩, ⟨"C", "C name", "c text"⟩]
        ⟨"general", "General Purpose", "Balanced", []⟩⟩ : JudgeDispatch) ∈
      judgeDispatches JudgingMode.committee "the prompt"
        [⟨"A", "A name", "a text"⟩, ⟨"B", "B name", "b text"⟩, ⟨"C", "C name", "c text"⟩]
        ⟨"general", "General Purpose", "Balanced", []⟩ ["A", "B", "C"] := by
  have e : ([⟨"A", "A name", "a text"⟩, ⟨"B", "B name", "b text"⟩,
      ⟨"C", "C name", "c text"⟩] : List ResponseInfo).filter
        (fun r => r.modelId ≠ "A") =
      [⟨"B", "B name", "b text"⟩, ⟨"C", "C name", "c text"⟩] := by decide
  have h := (committee_excludes_own_response JudgingMode.committee "the prompt"
      [⟨"A", "A name", "a text"⟩, ⟨"B", "B name", "b text"⟩, ⟨"C", "C name", "c text"⟩]
      ⟨"general", "General Purpose", "Balanced", []⟩ ["A", "B", "C"] rfl).2
      "A" (by decide) (by decide)
  rw [e] at h
  exact h

/-- C9.  In committee mode with exactly two responses, every judge's
self-excluded evaluated set keeps at most one response, so every judge is
skipped before dispatch; the surviving-votes set is empty and the route
returns the total-judging-failure error (HTTP 500), although the
at-least-two-responses precondition is satisfied. -/
theorem committee_two_responses_total_failure (prompt : String)
    (r1 r2 : ResponseInfo) (judgeModelId : Option String)
    (judgeModelIds : Option (List String)) (criteria : JudgingCriteria)
    (synthOf : Option RawConsensusText) (voteOf : JudgeDispatch → Option JudgeVote)
    (hp : prompt ≠ "") :
    judgeRoutePOST prompt [r1, r2] JudgingMode.committee judgeModelId judgeModelIds
        criteria synthOf voteOf =
      RouteOutcome.httpError 500 "No judges were able to evaluate the responses" ∧
    routeDispatches prompt [r1, r2] JudgingMode.committee judgeModelId judgeModelIds
        criteria = [] := by
  have hcond : ¬ (prompt = "" ∨ ([r1, r2] : List ResponseInfo).length < 2) := by
    simp [hp]
  have e1 : (evaluatedFor JudgingMode.committee [r1, r2] r1.modelId).length < 2 := by
    rw [evaluatedFor_committee]
    exact filter_two_without_self _ r1 r2 (Or.inl (by simp))
  have e2 : (evaluatedFor JudgingMode.committee [r1, r2] r2.modelId).length < 2 := by
    rw [evaluatedFor_committee]
    exact filter_two_without_self _ r1 r2 (Or.inr (by simp))
  have hdisp : judgeDispatches JudgingMode.committee prompt [r1, r2] criteria
      [r1.modelId, r2.modelId] = [] := by
    simp only [judgeDispatches, List.filterMap]
    rw [if_pos e1, if_pos e2]
  have hres : resolveJudges JudgingMode.committee [r1, r2] judgeModelId judgeModelIds =
      Except.ok [r1.modelId, r2.modelId] := by
    simp [resolveJudges]
  constructor
  · unfold judgeRoutePOST
    rw [if_neg hcond]
    rw [if_neg (by simp)]
    rw [hres]
    simp [hdisp]
  · unfold routeDispatches
    rw [if_neg hcond]
    rw [if_neg (by simp)]
    rw [hres]
    exact hdisp

/-- C9 witness: the committee route with two concrete responses. -/
theorem committee_two_responses_total_failure_witness :
    judgeRoutePOST "the prompt"
        [⟨"A", "A name", "a text"⟩, ⟨"B", "B name", "b text"⟩]
        JudgingMode.committee none none
        ⟨"general", "General Purpose", "Balanced", []⟩ none (fun _ => none) =
      RouteOutcome.httpError 500 "No judges were able to evaluate the responses" :=
  (committee_two_responses_total_failure "the prompt"
    ⟨"A", "A name", "a text"⟩ ⟨"B", "B name", "b text"⟩ none none
    ⟨"general", "General Purpose", "Balanced", []⟩ none (fun _ => none)
    (by decide)).1

/-- C3.  A judging request with fewer than two responses that have no error
and non-empty content is rejected with a structured error before any judge
dispatch, in every mode: the page's trigger filters to usable responses and
short-circuits with an error verdict issuing no request at all, and the judge
route itself answers any under-sized request with a 400 error while issuing
no judge dispatch. -/
theorem judge_precondition_short_circuit (fullPrompt : String)
    (rs : List ModelResponse) (mode : JudgingMode)
    (h : (rs.filter (fun r => !(jsTruthyS r.error) && jsTrim r.content ≠ "")).length < 2) :
    triggerJudgeEvaluation fullPrompt rs mode =
      JudgeTrigger.verdictError "Not enough successful responses to evaluate."
        "Fewer than 2 models responded successfully." ∧
    (∀ prompt responses judgeModelId judgeModelIds criteria synthOf voteOf,
      (responses : List ResponseInfo).length < 2 →
      judgeRoutePOST prompt responses mode judgeModelId judgeModelIds criteria
          synthOf voteOf =
        RouteOutcome.httpError 400 "Prompt and at least 2 responses required" ∧
      routeDispatches prompt responses mode judgeModelId judgeModelIds criteria = []) := by
  constructor
  · have hmono := length_filter_implies usableResponse
      (fun r => !(jsTruthyS r.error) && jsTrim r.content ≠ "")
      (by
        intro a ha
        simp only [usableResponse, Bool.and_eq_true] at ha
        simp [ha.1.2, ha.2]) rs
    have hlen : (completedResponses rs).length < 2 := by
      simp only [completedResponses, List.length_map]
      omega
    unfold triggerJudgeEvaluation
    rw [if_pos hlen]
  · intro prompt responses judgeModelId judgeModelIds criteria synthOf voteOf hlen
    constructor
    · unfold judgeRoutePOST
      rw [if_pos (Or.inr hlen)]
    · unfold routeDispatches
      rw [if_pos (Or.inr hlen)]

/-- C3 witness: one usable and one empty-content response short-circuit the
trigger in committee mode. -/
theorem judge_precondition_short_circuit_witness :
    triggerJudgeEvaluation "the prompt"
        [⟨"A", "A name", "hello", false, true, none⟩,
          ⟨"B", "B name", "", false, true, none⟩]
        JudgingMode.committee =
      JudgeTrigger.verdictError "Not enough successful responses to evaluate."
        "Fewer than 2 models responded successfully." :=
  (judge_precondition_short_circuit "the prompt"
    [⟨"A", "A name", "hello", false, true, none⟩,
      ⟨"B", "B name", "", false, true, none⟩]
    JudgingMode.committee (by decide)).1

/-- Terminal events add over concatenation. -/
theorem terminalCount_append (l1 l2 : List StreamEvent) :
    terminalCount (l1 ++ l2) = terminalCount l1 + terminalCount l2 := by
  simp [terminalCount, List.filter_append]

/-- One processed line yields a terminal event exactly when it is the
`[DONE]` sentinel line, and never more than one. -/
theorem terminalCount_processLine (pd : String → Option String) (mid : String)
    (line : String) :
    terminalCount (processLine pd mid line) = if isDoneLine line then 1 else 0 := by
  unfold processLine isDoneLine
  by_cases h1 : jsTrim line = ""
  · simp [h1, terminalCount]
  · by_cases h2 : jsStartsWith (jsTrim line) "data: " = true
    · by_cases h3 : jsDrop 6 (jsTrim line) = "[DONE]"
      · simp [h1, h2, h3, terminalCount, doneEvent]
      · cases hpd : pd (jsDrop 6 (jsTrim line)) with
        | none => simp [h1, h2, h3, hpd, terminalCount]
        | some c =>
          by_cases hc : c = ""
          · simp [h1, h2, h3, hpd, hc, terminalCount]
          · simp [h1, h2, h3, hpd, hc, terminalCount, contentEvent]
    · simp [h1, h2, terminalCount]

/-- The read loop writes exactly one terminal event per `[DONE]` line. -/
theorem terminalCount_lines (pd : String → Option String) (mid : String)
    (lines : List String) :
    terminalCount (lines.flatMap (processLine pd mid)) =
      (lines.filter isDoneLine).length := by
  induction lines with
  | nil => simp [terminalCount]
  | cons l t ih =>
    rw [List.flatMap_cons, terminalCount_append, terminalCount_processLine, ih]
    by_cases h : isDoneLine l = true
    · rw [List.filter_cons_of_pos h, if_pos h, List.length_cons]
      omega
    · rw [List.filter_cons_of_neg (by simpa using h), if_neg (by simpa using h)]
      omega

/-- Every event a line produces is tagged with the branch's backend. -/
theorem processLine_modelId (pd : String → Option String) (mid : String)
    (line : String) : ∀ e ∈ processLine pd mid line, e.modelId = mid := by
  intro e he
  unfold processLine at he
  by_cases h1 : jsTrim line = ""
  · simp [h1] at he
  · by_cases h2 : jsStartsWith (jsTrim line) "data: " = true
    · by_cases h3 : jsDrop 6 (jsTrim line) = "[DONE]"
      · simp [h1, h2, h3, doneEvent] at he
        simp [he]
      · cases hpd : pd (jsDrop 6 (jsTrim line)) with
        | none => simp [h1, h2, h3, hpd] at he
        | some c =>
          by_cases hc : c = ""
          · simp [h1, h2, h3, hpd, hc] at he
          · simp [h1, h2, h3, hpd, hc, contentEvent] at he
            simp [he]
    · simp [h1, h2] at he

/-- Every event a branch writes is tagged with the branch's backend. -/
theorem processModel_modelId (pd : String → Option String) (mid : String)
    (o : UpstreamOutcome) : ∀ e ∈ processModel pd mid o, e.modelId = mid := by
  intro e he
  cases o with
  | fetchError msg =>
    simp [processModel, errorEvent] at he
    simp [he]
  | httpError status body =>
    simp [processModel, errorEvent] at he
    simp [he]
  | noBody =>
    simp [processModel, errorEvent] at he
    simp [he]
  | okStream chunks readError =>
    simp only [processModel, processChunks, List.mem_append] at he
    rcases he with he | he
    · obtain ⟨l, _, hel⟩ := List.mem_flatMap.mp he
      exact processLine_modelId pd mid l e hel
    · cases readError with
      | some msg =>
        simp [errorEvent] at he
        simp [he]
      | none => simp at he

/-- In the merged stream the events attributed to a requested backend are
exactly its own branch's events, for distinct backend identifiers. -/
theorem eventsFor_committeeStream (pd : String → Option String)
    (upstream : String → UpstreamOutcome) (models : List String) (b : String)
    (hnd : models.Nodup) (hb : b ∈ models) :
    eventsFor b (committeeStream pd upstream models) =
      processModel pd b (upstream b) := by
  induction models with
  | nil => cases hb
  | cons m t ih =>
    rw [committeeStream, List.flatMap_cons]
    unfold eventsFor
    rw [List.filter_append]
    rcases List.mem_cons.mp hb with rfl | hbt
    · have h1 : (processModel pd b (upstream b)).filter (fun e => e.modelId = b) =
          processModel pd b (upstream b) :=
        List.filter_eq_self.mpr (fun e he => by
          simp [processModel_modelId pd b (upstream b) e he])
      have h2 : (t.flatMap (fun m => processModel pd m (upstream m))).filter
          (fun e => e.modelId = b) = [] := by
        rw [List.filter_eq_nil_iff]
        intro e he
        obtain ⟨m', hm', hem'⟩ := List.mem_flatMap.mp he
        have : e.modelId = m' := processModel_modelId pd m' (upstream m') e hem'
        have hne : m' ≠ b := fun hcontr => (List.nodup_cons.mp hnd).1 (hcontr ▸ hm')
        simp [this, hne]
      rw [h1, h2, List.append_nil]
    · have hne : m ≠ b := fun hcontr =>
        (List.nodup_cons.mp hnd).1 (hcontr ▸ hbt)
      have h1 : (processModel pd m (upstream m)).filter (fun e => e.modelId = b) = [] := by
        rw [List.filter_eq_nil_iff]
        intro e he
        have : e.modelId = m := processModel_modelId pd m (upstream m) e he
        simp [this, hne]
      rw [h1, List.nil_append]
      have := ih (List.nodup_cons.mp hnd).2 hbt
      unfold eventsFor at this
      exact this

/-- C4.  A backend whose upstream stream ends without delivering the
`[DONE]` sentinel emits zero terminal events on the merged stream: with two
requested backends, backend A's stream carries the sentinel and ends with
exactly one terminal event, while backend B's stream ends without it and gets
none — refuting "exactly one terminal event per backend regardless of how
the upstream stream ends". -/
theorem stream_missing_sentinel_zero_terminals :
    committeePOST (fun _ => none)
        (fun m => if m = "A" then UpstreamOutcome.okStream ["data: [DONE]\n"] none
          else UpstreamOutcome.okStream ["data: hello\n"] none)
        "the prompt" ["A", "B"] =
      CommitteeOutcome.stream
        (committeeStream (fun _ => none)
          (fun m => if m = "A" then UpstreamOutcome.okStream ["data: [DONE]\n"] none
            else UpstreamOutcome.okStream ["data: hello\n"] none)
          ["A", "B"]) ∧
    terminalCount (eventsFor "A"
      (committeeStream (fun _ => none)
        (fun m => if m = "A" then UpstreamOutcome.okStream ["data: [DONE]\n"] none
          else UpstreamOutcome.okStream ["data: hello\n"] none)
        ["A", "B"])) = 1 ∧
    terminalCount (eventsFor "B"
      (committeeStream (fun _ => none)
        (fun m => if m = "A" then UpstreamOutcome.okStream ["data: [DONE]\n"] none
          else UpstreamOutcome.okStream ["data: hello\n"] none)
        ["A", "B"])) = 0 := by
  refine ⟨?_, by decide, by decide⟩
  rw [committeePOST, if_neg (by decide)]

/-- C4 (amended).  Per backend, the merged stream carries exactly that
backend's branch events; a branch that fails before streaming (transport
error, non-OK status, missing body) emits exactly one terminal event; a
streamed branch emits one terminal event per extracted `[DONE]` sentinel
line plus one more if a mid-read exception ends it — hence exactly one when
the stream delivers the sentinel exactly once and ends normally, zero when
the stream ends without the sentinel, and more than one when the sentinel
repeats or is followed by a read error. -/
theorem stream_terminal_event_counts (pd : String → Option String) (mid : String) :
    (∀ msg, terminalCount (processModel pd mid (UpstreamOutcome.fetchError msg)) = 1) ∧
    (∀ status body,
      terminalCount (processModel pd mid (UpstreamOutcome.httpError status body)) = 1) ∧
    terminalCount (processModel pd mid UpstreamOutcome.noBody) = 1 ∧
    (∀ chunks readError,
      terminalCount (processModel pd mid (UpstreamOutcome.okStream chunks readError)) =
        ((extractLines chunks "").filter isDoneLine).length +
          (if readError.isSome then 1 else 0)) ∧
    (∀ upstream models b, models.Nodup → b ∈ models →
      eventsFor b (committeeStream pd upstream models) =
        processModel pd b (upstream b)) ∧
    (∀ chunks,
      ((extractLines chunks "").filter isDoneLine).length = 1 →
      terminalCount (processModel pd mid (UpstreamOutcome.okStream chunks none)) = 1) := by
  have hok : ∀ chunks readError,
      terminalCount (processModel pd mid (UpstreamOutcome.okStream chunks readError)) =
        ((extractLines chunks "").filter isDoneLine).length +
          (if readError.isSome then 1 else 0) := by
    intro chunks readError
    show terminalCount (processChunks pd mid chunks ++ _) = _
    rw [terminalCount_append, processChunks, terminalCount_lines]
    cases readError with
    | some msg => simp [terminalCount, errorEvent]
    | none => simp [terminalCount]
  refine ⟨?_, ?_, ?_, hok, ?_, ?_⟩
  · intro msg
    simp [processModel, terminalCount, errorEvent]
  · intro status body
    simp [processModel, terminalCount, errorEvent]
  · simp [processModel, terminalCount, errorEvent]
  · intro upstream models b hnd hb
    exact eventsFor_committeeStream pd upstream models b hnd hb
  · intro chunks hone
    rw [hok chunks none, hone]
    simp

/-- C4 witness: a stream delivering the sentinel exactly once, ending
normally, emits exactly one terminal event. -/
theorem stream_terminal_event_counts_witness :
    ((extractLines ["data: [DONE]\n"] "").filter isDoneLine).length = 1 ∧
    terminalCount (processModel (fun _ => none) "A"
      (UpstreamOutcome.okStream ["data: [DONE]\n"] none)) = 1 :=
  ⟨by decide,
    (stream_terminal_event_counts (fun _ => none) "A").2.2.2.2.2
      ["data: [DONE]\n"] (by decide)⟩

/-- Reading a key after one bump: the bumped key gains one, others are
unchanged. -/
theorem getCount_bumpCount (acc : List (String × Nat)) (w b : String) :
    getCount (bumpCount acc w) b = getCount acc b + (if w = b then 1 else 0) := by
  induction acc with
  | nil => by_cases h : w = b <;> simp [bumpCount, getCount, h]
  | cons e rest ih =>
    obtain ⟨k, n⟩ := e
    by_cases hkw : k = w
    · subst hkw
      by_cases hkb : k = b <;> simp [bumpCount, getCount, hkb]
    · by_cases hkb : k = b
      · subst hkb
        have hw : ¬ w = k := fun h => hkw h.symm
        simp [bumpCount, getCount, hkw, hw]
      · simp [bumpCount, getCount, hkw, hkb, ih]

/-- Reading a key after folding all votes: initial value plus the number of
votes naming that key. -/
theorem getCount_foldl_bump (votes : List JudgeVote) (acc : List (String × Nat))
    (b : String) :
    getCount (votes.foldl (fun a v => bumpCount a v.winnerModelId) acc) b =
      getCount acc b + countVotes votes b := by
  induction votes generalizing acc with
  | nil => simp [countVotes]
  | cons v t ih =>
    rw [List.foldl_cons, ih, getCount_bumpCount]
    unfold countVotes
    by_cases h : v.winnerModelId = b
    · rw [List.filter_cons_of_pos (by simp [h]), List.length_cons, if_pos h]
      omega
    · rw [List.filter_cons_of_neg (by simp [h]), if_neg h]
      omega

/-- The tally read of `voteCount[b] || 0` equals the number of surviving
votes naming `b`. -/
theorem getCount_voteCountOf (votes : List JudgeVote) (b : String) :
    getCount (voteCountOf votes) b = countVotes votes b := by
  have h := getCount_foldl_bump votes [] b
  simpa [voteCountOf, getCount] using h

/-- Bumping an already-present key leaves the key list unchanged. -/
theorem keys_bumpCount_mem (acc : List (String × Nat)) (w : String)
    (h : w ∈ acc.map Prod.fst) :
    (bumpCount acc w).map Prod.fst = acc.map Prod.fst := by
  induction acc with
  | nil => cases h
  | cons e rest ih =>
    obtain ⟨k, n⟩ := e
    by_cases hkw : k = w
    · subst hkw
      simp [bumpCount]
    · have hw : w ∈ rest.map Prod.fst := by
        rcases List.mem_cons.mp h with heq | hm
        · exact absurd heq.symm (by simpa using hkw)
        · exact hm
      simp [bumpCount, hkw, ih hw]

/-- Bumping a fresh key appends it to the key list. -/
theorem keys_bumpCount_notMem (acc : List (String × Nat)) (w : String)
    (h : w ∉ acc.map Prod.fst) :
    (bumpCount acc w).map Prod.fst = acc.map Prod.fst ++ [w] := by
  induction acc with
  | nil => simp [bumpCount]
  | cons e rest ih =>
    obtain ⟨k, n⟩ := e
    have hkw : ¬ k = w := by
      intro hcontr
      exact h (by simp [hcontr])
    have hw : w ∉ rest.map Prod.fst := fun hm => h (by simp [hm])
    simp [bumpCount, hkw, ih hw]

/-- Excluding one more key merges two successive filters. -/
theorem filter_notMem_append (l keys : List String) (w : String) :
    (l.filter (fun k => k ∉ keys)).filter (fun k => k ≠ w) =
      l.filter (fun k => k ∉ keys ++ [w]) := by
  rw [List.filter_filter]
  apply List.filter_congr
  intro x _
  by_cases hk : x ∈ keys
  · simp [hk]
  · by_cases hw : x = w <;> simp [hk, hw]

/-- The key list after folding all votes: initial keys followed by the fresh
winners in first-occurrence order. -/
theorem keys_foldl_bump (votes : List JudgeVote) (acc : List (String × Nat)) :
    (votes.foldl (fun a v => bumpCount a v.winnerModelId) acc).map Prod.fst =
      acc.map Prod.fst ++
        jsSetDedup ((votes.map (fun v => v.winnerModelId)).filter
          (fun k => k ∉ acc.map Prod.fst)) := by
  induction votes generalizing acc with
  | nil => simp [jsSetDedup]
  | cons v t ih =>
    rw [List.foldl_cons, ih]
    by_cases hmem : v.winnerModelId ∈ acc.map Prod.fst
    · have hk := keys_bumpCount_mem acc v.winnerModelId hmem
      simp only [hk, List.map_cons]
      rw [List.filter_cons_of_neg (by simp [hmem])]
    · have hk := keys_bumpCount_notMem acc v.winnerModelId hmem
      simp only [hk, List.map_cons]
      rw [List.filter_cons_of_pos (by simp [hmem])]
      rw [show jsSetDedup (v.winnerModelId ::
          (t.map (fun v => v.winnerModelId)).filter (fun k => k ∉ acc.map Prod.fst)) =
          v.winnerModelId ::
            jsSetDedup (((t.map (fun v => v.winnerModelId)).filter
              (fun k => k ∉ acc.map Prod.fst)).filter
                (fun y => y ≠ v.winnerModelId)) from by
        simp [jsSetDedup]]
      rw [filter_notMem_append]
      rw [List.append_assoc, List.singleton_append]

/-- The tally's key list is the deduplicated winner list in
first-occurrence order. -/
theorem keys_voteCountOf (votes : List JudgeVote) :
    (voteCountOf votes).map Prod.fst =
      jsSetDedup (votes.map (fun v => v.winnerModelId)) := by
  have h := keys_foldl_bump votes []
  simpa [voteCountOf] using h

/-- Removing the occurrences of an element failing the search predicate does
not change the first hit. -/
theorem find?_filter_ne (p : String → Bool) (x : String) (hx : ¬ p x = true)
    (xs : List String) :
    (xs.filter (fun y => y ≠ x)).find? p = xs.find? p := by
  induction xs with
  | nil => simp
  | cons a t ih =>
    by_cases hax : a = x
    · subst hax
      rw [List.filter_cons_of_neg (by simp), List.find?_cons_of_neg _ hx]
      exact ih
    · rw [List.filter_cons_of_pos (by simp [hax])]
      by_cases hpa : p a = true
      · rw [List.find?_cons_of_pos _ hpa, List.find?_cons_of_pos _ hpa]
      · rw [List.find?_cons_of_neg _ hpa, List.find?_cons_of_neg _ hpa]
        exact ih

/-- First-occurrence deduplication preserves the first hit of any search. -/
theorem jsSetDedup_find? (p : String → Bool) (l : List String) :
    (jsSetDedup l).find? p = l.find? p := by
  induction l using jsSetDedup.induct with
  | case1 => simp [jsSetDedup]
  | case2 a as ih =>
    rw [show jsSetDedup (a :: as) = a :: jsSetDedup (as.filter (fun y => y ≠ a)) from by
      simp [jsSetDedup]]
    by_cases hpa : p a = true
    · rw [List.find?_cons_of_pos _ hpa, List.find?_cons_of_pos _ hpa]
    · rw [List.find?_cons_of_neg _ hpa, List.find?_cons_of_neg _ hpa, ih]
      exact find?_filter_ne p a hpa as

/-- First-occurrence deduplication preserves membership. -/
theorem mem_jsSetDedup (x : String) (l : List String) :
    x ∈ jsSetDedup l ↔ x ∈ l := by
  induction l using jsSetDedup.induct with
  | case1 => simp [jsSetDedup]
  | case2 a as ih =>
    rw [show jsSetDedup (a :: as) = a :: jsSetDedup (as.filter (fun y => y ≠ a)) from by
      simp [jsSetDedup]]
    simp only [List.mem_cons, ih, List.mem_filter]
    constructor
    · rintro (rfl | ⟨h, _⟩)
      · exact Or.inl rfl
      · exact Or.inr h
    · rintro (rfl | h)
      · exact Or.inl rfl
      · by_cases hax : x = a
        · exact Or.inl hax
        · exact Or.inr ⟨h, by simpa using hax⟩

/-- First-occurrence deduplication yields distinct elements. -/
theorem nodup_jsSetDedup (l : List String) : (jsSetDedup l).Nodup := by
  induction l using jsSetDedup.induct with
  | case1 => simp [jsSetDedup]
  | case2 a as ih =>
    rw [show jsSetDedup (a :: as) = a :: jsSetDedup (as.filter (fun y => y ≠ a)) from by
      simp [jsSetDedup]]
    refine List.nodup_cons.mpr ⟨?_, ih⟩
    intro hmem
    have := (mem_jsSetDedup a _).mp hmem
    simp [List.mem_filter] at this

/-- Pointwise-equal predicates find the same first hit. -/
theorem find?_congr_mem {α : Type} (p q : α → Bool) :
    ∀ l : List α, (∀ x ∈ l, p x = q x) → l.find? p = l.find? q := by
  intro l
  induction l with
  | nil => simp
  | cons a t ih =>
    intro h
    have ha := h a (List.mem_cons_self a t)
    by_cases hpa : p a = true
    · rw [List.find?_cons_of_pos _ hpa, List.find?_cons_of_pos _ (ha ▸ hpa)]
    · rw [List.find?_cons_of_neg _ hpa, List.find?_cons_of_neg _ (ha ▸ hpa)]
      exact ih (fun x hx => h x (List.mem_cons_of_mem a hx))

/-- With distinct keys, the read of a present entry returns its value. -/
theorem getCount_of_mem_nodupKeys (l : List (String × Nat))
    (hnd : (l.map Prod.fst).Nodup) (k : String) (n : Nat) (h : (k, n) ∈ l) :
    getCount l k = n := by
  induction l with
  | nil => cases h
  | cons e rest ih =>
    obtain ⟨k0, n0⟩ := e
    rcases List.mem_cons.mp h with heq | hmem
    · cases heq
      simp [getCount]
    · have hk : ¬ k0 = k := by
        intro hcontr
        subst hcontr
        exact (List.nodup_cons.mp hnd).1
          (List.mem_map.mpr ⟨(k0, n), hmem, rfl⟩)
      simp only [getCount, if_neg hk]
      exact ih (List.nodup_cons.mp hnd).2 hmem

/-- A present key's read value is realised by an actual entry. -/
theorem mem_getCount (l : List (String × Nat)) (b : String)
    (h : b ∈ l.map Prod.fst) : (b, getCount l b) ∈ l := by
  induction l with
  | nil => cases h
  | cons e rest ih =>
    obtain ⟨k0, n0⟩ := e
    by_cases hk : k0 = b
    · subst hk
      simp [getCount]
    · have hb : b ∈ rest.map Prod.fst := by
        rcases List.mem_cons.mp h with heq | hm
        · exact absurd heq.symm (by simpa using hk)
        · exact hm
      simp only [getCount, if_neg hk]
      exact List.mem_cons_of_mem _ (ih hb)

/-- The running maximum dominates the start value and every element. -/
theorem foldl_pickMax_ge (l : List (String × Nat)) (acc : String × Nat) :
    acc.2 ≤ (l.foldl (fun a e => if e.2 > a.2 then e else a) acc).2 ∧
    ∀ e ∈ l, e.2 ≤ (l.foldl (fun a e => if e.2 > a.2 then e else a) acc).2 := by
  induction l generalizing acc with
  | nil => simp
  | cons x t ih =>
    rw [List.foldl_cons]
    constructor
    · refine le_trans ?_ (ih (if x.2 > acc.2 then x else acc)).1
      by_cases h : x.2 > acc.2 <;> simp [h] <;> omega
    · intro e he
      rcases List.mem_cons.mp he with rfl | het
      · refine le_trans ?_ (ih (if e.2 > acc.2 then e else acc)).1
        by_cases h : e.2 > acc.2 <;> simp [h] <;> omega
      · exact (ih _).2 e het

/-- The fold either never improves on the start value or lands on the first
element attaining the maximum. -/
theorem foldl_pickMax_find? (l : List (String × Nat)) :
    ∀ acc : String × Nat,
      l.foldl (fun a e => if e.2 > a.2 then e else a) acc = acc ∨
      (acc.2 < (l.foldl (fun a e => if e.2 > a.2 then e else a) acc).2 ∧
        l.find? (fun e =>
            (l.foldl (fun a e => if e.2 > a.2 then e else a) acc).2 ≤ e.2) =
          some (l.foldl (fun a e => if e.2 > a.2 then e else a) acc)) := by
  induction l with
  | nil => intro acc; left; rfl
  | cons x t ih =>
    intro acc
    rw [List.foldl_cons]
    by_cases hx : x.2 > acc.2
    · right
      rw [if_pos hx]
      rcases ih x with h | ⟨hlt, hfind⟩
      · rw [h]
        refine ⟨hx, ?_⟩
        rw [List.find?_cons_of_pos _ (by simp)]
      · refine ⟨lt_trans hx hlt, ?_⟩
        rw [List.find?_cons_of_neg _ (by simp only [decide_eq_true_eq]; omega)]
        exact hfind
    · rw [if_neg hx]
      rcases ih acc with h | ⟨hlt, hfind⟩
      · left; exact h
      · right
        refine ⟨hlt, ?_⟩
        rw [List.find?_cons_of_neg _ (by simp only [decide_eq_true_eq]; omega)]
        exact hfind

/-- A backend named by some vote has a positive tally. -/
theorem countVotes_pos (votes : List JudgeVote) (b : String)
    (h : b ∈ votes.map (fun v => v.winnerModelId)) : 0 < countVotes votes b := by
  obtain ⟨v, hv, hvb⟩ := List.mem_map.mp h
  unfold countVotes
  have : v ∈ votes.filter (fun v => v.winnerModelId = b) :=
    List.mem_filter.mpr ⟨hv, by simp [hvb]⟩
  exact List.length_pos.mpr (fun hnil => by simp [hnil] at this)

/-- A backend named by no vote has tally zero. -/
theorem countVotes_eq_zero (votes : List JudgeVote) (b : String)
    (h : b ∉ votes.map (fun v => v.winnerModelId)) : countVotes votes b = 0 := by
  unfold countVotes
  rw [List.length_eq_zero]
  rw [List.filter_eq_nil_iff]
  intro v hv
  simp only [decide_eq_true_eq]
  intro hvb
  exact h (List.mem_map.mpr ⟨v, hv, hvb⟩)

/-- Core tally/winner specification: the tally object counts votes exactly,
the selected winner's tally is maximal, and the winner is the pick of the
first vote whose pick attains the maximal tally. -/
theorem voteCount_winner_spec (votes : List JudgeVote) (hne : votes ≠ []) :
    (∀ b, getCount (voteCountOf votes) b = countVotes votes b) ∧
    (∀ b, countVotes votes b ≤
      countVotes votes (selectWinner (voteCountOf votes)).1) ∧
    (∃ v0, votes.find? (fun v => countVotes votes v.winnerModelId =
        countVotes votes (selectWinner (voteCountOf votes)).1) = some v0 ∧
      (selectWinner (voteCountOf votes)).1 = v0.winnerModelId) := by
  have hget : ∀ b, getCount (voteCountOf votes) b = countVotes votes b :=
    getCount_voteCountOf votes
  have hkeys : (voteCountOf votes).map Prod.fst =
      jsSetDedup (votes.map (fun v => v.winnerModelId)) := keys_voteCountOf votes
  have hnd : ((voteCountOf votes).map Prod.fst).Nodup := by
    rw [hkeys]
    exact nodup_jsSetDedup _
  have hF1 : ∀ e ∈ voteCountOf votes, e.2 = countVotes votes e.1 := by
    intro e he
    obtain ⟨k, n⟩ := e
    have h1 := getCount_of_mem_nodupKeys (voteCountOf votes) hnd k n he
    rw [hget k] at h1
    exact h1.symm
  have hpos : ∀ e ∈ voteCountOf votes, 0 < e.2 := by
    intro e he
    have hk : e.1 ∈ (voteCountOf votes).map Prod.fst :=
      List.mem_map_of_mem Prod.fst he
    rw [hkeys] at hk
    rw [hF1 e he]
    exact countVotes_pos votes e.1 ((mem_jsSetDedup _ _).mp hk)
  have hsel : selectWinner (voteCountOf votes) =
      (voteCountOf votes).foldl (fun a e => if e.2 > a.2 then e else a) ("", 0) := rfl
  have hge := foldl_pickMax_ge (voteCountOf votes) ("", 0)
  obtain ⟨e1, he1⟩ : ∃ e1, e1 ∈ voteCountOf votes := by
    obtain ⟨v, hv⟩ := List.exists_mem_of_ne_nil votes hne
    have hp : v.winnerModelId ∈ votes.map (fun v => v.winnerModelId) :=
      List.mem_map_of_mem _ hv
    have hk : v.winnerModelId ∈ (voteCountOf votes).map Prod.fst := by
      rw [hkeys]
      exact (mem_jsSetDedup _ _).mpr hp
    obtain ⟨e, he, _⟩ := List.mem_map.mp hk
    exact ⟨e, he⟩
  rcases foldl_pickMax_find? (voteCountOf votes) ("", 0) with hacc | ⟨_, hfind⟩
  · exfalso
    have h1 := hge.2 e1 he1
    rw [hacc] at h1
    have h2 := hpos e1 he1
    simp at h1
    omega
  · have hresmem : selectWinner (voteCountOf votes) ∈ voteCountOf votes := by
      rw [hsel]
      exact List.mem_of_find?_eq_some hfind
    have hres2 : (selectWinner (voteCountOf votes)).2 =
        countVotes votes (selectWinner (voteCountOf votes)).1 :=
      hF1 _ hresmem
    have hmax : ∀ b, countVotes votes b ≤
        countVotes votes (selectWinner (voteCountOf votes)).1 := by
      intro b
      by_cases hbK : b ∈ (voteCountOf votes).map Prod.fst
      · have hb := mem_getCount (voteCountOf votes) b hbK
        have h2 := hge.2 (b, getCount (voteCountOf votes) b) hb
        rw [← hsel] at h2
        calc countVotes votes b = getCount (voteCountOf votes) b := (hget b).symm
          _ ≤ (selectWinner (voteCountOf votes)).2 := h2
          _ = countVotes votes (selectWinner (voteCountOf votes)).1 := hres2
      · have hnb : b ∉ votes.map (fun v => v.winnerModelId) := by
          intro hmem
          exact hbK (by rw [hkeys]; exact (mem_jsSetDedup b _).mpr hmem)
        rw [countVotes_eq_zero votes b hnb]
        exact Nat.zero_le _
    refine ⟨hget, hmax, ?_⟩
    have hstepA : (voteCountOf votes).find?
        (fun e => countVotes votes e.1 =
          countVotes votes (selectWinner (voteCountOf votes)).1) =
        some (selectWinner (voteCountOf votes)) := by
      have hcongr := find?_congr_mem
        (fun e => decide (countVotes votes e.1 =
          countVotes votes (selectWinner (voteCountOf votes)).1))
        (fun e => decide ((selectWinner (voteCountOf votes)).2 ≤ e.2))
        (voteCountOf votes) ?_
      · rw [hcongr, hsel]
        exact hfind
      · intro e he
        rw [decide_eq_decide]
        have h1 := hF1 e he
        have h2 : e.2 ≤ (selectWinner (voteCountOf votes)).2 := by
          have h3 := hge.2 e he
          rw [← hsel] at h3
          exact h3
        constructor
        · intro hcv
          rw [hres2, ← hcv, ← h1]
        · intro hle
          have heq : e.2 = (selectWinner (voteCountOf votes)).2 :=
            Nat.le_antisymm h2 hle
          rw [← h1, heq, hres2]
    have hstepB : ((voteCountOf votes).map Prod.fst).find?
        (fun k => countVotes votes k =
          countVotes votes (selectWinner (voteCountOf votes)).1) =
        some (selectWinner (voteCountOf votes)).1 := by
      rw [List.find?_map]
      have hcomp : (voteCountOf votes).find?
          ((fun k => decide (countVotes votes k =
            countVotes votes (selectWinner (voteCountOf votes)).1)) ∘ Prod.fst) =
          some (selectWinner (voteCountOf votes)) := hstepA
      rw [hcomp]
      rfl
    have hstepC : (votes.map (fun v => v.winnerModelId)).find?
        (fun k => countVotes votes k =
          countVotes votes (selectWinner (voteCountOf votes)).1) =
        some (selectWinner (voteCountOf votes)).1 := by
      rw [← jsSetDedup_find? _ (votes.map (fun v => v.winnerModelId)), ← hkeys]
      exact hstepB
    have hstepD : Option.map (fun v => v.winnerModelId)
        (votes.find? (fun v => countVotes votes v.winnerModelId =
          countVotes votes (selectWinner (voteCountOf votes)).1)) =
        some (selectWinner (voteCountOf votes)).1 := by
      have hmap := List.find?_map (fun v : JudgeVote => v.winnerModelId)
        (p := fun k => countVotes votes k =
          countVotes votes (selectWinner (voteCountOf votes)).1) votes
      rw [hmap] at hstepC
      exact hstepC
    obtain ⟨v0, hv0, hv0pick⟩ := Option.map_eq_some'.mp hstepD
    exact ⟨v0, hv0, hv0pick.symm⟩

/-- C1.  For every non-empty list of surviving votes the returned verdict's
vote-count map assigns to each backend exactly the number of surviving votes
naming it as winner; the winner's tally is maximal; and the winner is the
backend picked by the first vote, in dispatch order, whose pick attains that
maximal tally — so votes `{A, A, B}` tally to `{A: 2, B: 1}` with winner A,
and a two-way tie `{A, B}` resolves to the first judge's pick A. -/
theorem vote_tally_and_tiebreak (mode : JudgingMode)
    (responses : List ResponseInfo) (judges : List String)
    (votes : List JudgeVote) (hne : votes ≠ []) :
    (aggregateVerdict mode responses judges votes).voteCount = voteCountOf votes ∧
    (∀ b, getCount (aggregateVerdict mode responses judges votes).voteCount b =
      countVotes votes b) ∧
    (∀ b, countVotes votes b ≤
      countVotes votes (aggregateVerdict mode responses judges votes).winnerModelId) ∧
    (∃ v0, votes.find? (fun v => countVotes votes v.winnerModelId =
        countVotes votes (aggregateVerdict mode responses judges votes).winnerModelId) =
          some v0 ∧
      (aggregateVerdict mode responses judges votes).winnerModelId =
        v0.winnerModelId) := by
  obtain ⟨h1, h2, h3⟩ := voteCount_winner_spec votes hne
  exact ⟨rfl, h1, h2, h3⟩

/-- C1 witness: two judges voting `{A, B}` in that dispatch order tie at one
vote each and the winner is A, the first judge's pick. -/
theorem vote_tally_and_tiebreak_witness :
    ([⟨"j1", "Judge 1", "A", "r1", []⟩, ⟨"j2", "Judge 2", "B", "r2", []⟩] :
      List JudgeVote) ≠ [] ∧
    (aggregateVerdict JudgingMode.committee [] ["j1", "j2"]
      [⟨"j1", "Judge 1", "A", "r1", []⟩, ⟨"j2", "Judge 2", "B", "r2", []⟩]).winnerModelId
      = "A" ∧
    (aggregateVerdict JudgingMode.committee [] ["j1", "j2"]
      [⟨"j1", "Judge 1", "A", "r1", []⟩, ⟨"j2", "Judge 2", "B", "r2", []⟩]).voteCount
      = [("A", 1), ("B", 1)] ∧
    (∀ b, countVotes
        [⟨"j1", "Judge 1", "A", "r1", []⟩, ⟨"j2", "Judge 2", "B", "r2", []⟩] b ≤
      countVotes [⟨"j1", "Judge 1", "A", "r1", []⟩, ⟨"j2", "Judge 2", "B", "r2", []⟩]
        (aggregateVerdict JudgingMode.committee [] ["j1", "j2"]
          [⟨"j1", "Judge 1", "A", "r1", []⟩,
            ⟨"j2", "Judge 2", "B", "r2", []⟩]).winnerModelId) := by
  refine ⟨by decide, by decide, by decide, ?_⟩
  exact (vote_tally_and_tiebreak JudgingMode.committee [] ["j1", "j2"]
    [⟨"j1", "Judge 1", "A", "r1", []⟩, ⟨"j2", "Judge 2", "B", "r2", []⟩]
    (by decide)).2.2.1

/-- The nested per-vote score fold equals one flat fold over all entries. -/
theorem foldl_scores_flat (votes : List JudgeVote) :
    ∀ init, votes.foldl (fun m v => v.scores.foldl scoreStep m) init =
      (votes.flatMap (fun v => v.scores)).foldl scoreStep init := by
  induction votes with
  | nil => intro init; rfl
  | cons v t ih =>
    intro init
    rw [List.foldl_cons, List.flatMap_cons, List.foldl_append]
    exact ih _

/-- Reading the score map after a `Map.set`. -/
theorem mapGet_mapSet (m : List (String × ScoreAcc)) (k b : String) (v : ScoreAcc) :
    mapGet (mapSet m k v) b = if k = b then some v else mapGet m b := by
  induction m with
  | nil => by_cases h : k = b <;> simp [mapSet, mapGet, h]
  | cons e rest ih =>
    obtain ⟨k0, v0⟩ := e
    by_cases hk0 : k0 = k
    · subst hk0
      by_cases hb : k0 = b <;> simp [mapSet, mapGet, hb]
    · by_cases hb : k0 = b
      · subst hb
        have hkb : ¬ k = k0 := fun h => hk0 h.symm
        simp [mapSet, mapGet, hk0, hkb]
      · simp [mapSet, mapGet, hk0, hb, ih]

/-- Reading the score map after folding one entry. -/
theorem mapGet_scoreStep (m : List (String × ScoreAcc)) (s : ScoreEntry) (b : String) :
    mapGet (scoreStep m s) b =
      if s.modelId = b then
        some (addScoreEntry ((mapGet m b).getD emptyAcc) s)
      else mapGet m b := by
  unfold scoreStep
  rw [mapGet_mapSet]
  by_cases h : s.modelId = b
  · rw [if_pos h, if_pos h, h]
  · rw [if_neg h, if_neg h]

/-- Reading the score map after a flat fold: only the entries naming the key
contribute, in order. -/
theorem mapGet_foldl_scoreStep (entries : List ScoreEntry) :
    ∀ (m : List (String × ScoreAcc)) (b : String),
      mapGet (entries.foldl scoreStep m) b =
        (entries.filter (fun s => s.modelId = b)).foldl
          (fun acc s => some (addScoreEntry (acc.getD emptyAcc) s)) (mapGet m b) := by
  induction entries with
  | nil => intro m b; rfl
  | cons s t ih =>
    intro m b
    rw [List.foldl_cons, ih]
    by_cases h : s.modelId = b
    · rw [List.filter_cons_of_pos (by simp [h]), List.foldl_cons,
        mapGet_scoreStep, if_pos h]
    · rw [List.filter_cons_of_neg (by simp [h]), mapGet_scoreStep, if_neg h]

/-- Closed form of the per-key accumulation, starting from a slot. -/
theorem foldl_addScore_spec (es : List ScoreEntry) :
    ∀ d : ScoreAcc,
      es.foldl (fun acc s => some (addScoreEntry (acc.getD emptyAcc) s)) (some d) =
        some ⟨d.total + (es.map (fun s => s.score)).sum,
              d.count + es.length,
              d.strengths ++ es.flatMap (fun s => s.strengths),
              d.weaknesses ++ es.flatMap (fun s => s.weaknesses)⟩ := by
  induction es with
  | nil => intro d; simp
  | cons s t ih =>
    intro d
    rw [List.foldl_cons]
    show t.foldl _ (some (addScoreEntry d s)) = _
    rw [ih (addScoreEntry d s)]
    simp only [addScoreEntry, Option.some.injEq, ScoreAcc.mk.injEq, List.map_cons,
      List.sum_cons, List.flatMap_cons, List.length_cons, List.append_assoc]
    exact ⟨by omega, by omega, by trivial, by trivial⟩

/-- Closed form of the per-key accumulation from an empty slot. -/
theorem foldl_addScore_none (es : List ScoreEntry) (hne : es ≠ []) :
    es.foldl (fun acc s => some (addScoreEntry (acc.getD emptyAcc) s)) none =
      some ⟨(es.map (fun s => s.score)).sum, es.length,
            es.flatMap (fun s => s.strengths),
            es.flatMap (fun s => s.weaknesses)⟩ := by
  cases es with
  | nil => exact absurd rfl hne
  | cons s t =>
    rw [List.foldl_cons]
    show t.foldl _ (some (addScoreEntry emptyAcc s)) = _
    rw [foldl_addScore_spec t (addScoreEntry emptyAcc s)]
    simp only [addScoreEntry, emptyAcc, Option.some.injEq, ScoreAcc.mk.injEq,
      List.map_cons, List.sum_cons, List.flatMap_cons, List.length_cons,
      List.nil_append]
    exact ⟨by omega, by omega, by trivial, by trivial⟩

/-- A successful score-map read is realised by an actual entry. -/
theorem mapGet_mem (l : List (String × ScoreAcc)) (b : String) (v : ScoreAcc)
    (h : mapGet l b = some v) : (b, v) ∈ l := by
  induction l with
  | nil => cases h
  | cons e rest ih =>
    obtain ⟨k0, v0⟩ := e
    by_cases hk : k0 = b
    · subst hk
      have h2 : v0 = v := by simpa [mapGet] using h
      subst h2
      exact List.mem_cons_self _ _
    · simp only [mapGet, if_neg hk] at h
      exact List.mem_cons_of_mem _ (ih h)

/-- Setting an existing key leaves the score-map key list unchanged. -/
theorem keys_mapSet_mem (m : List (String × ScoreAcc)) (k : String) (v : ScoreAcc)
    (h : k ∈ m.map Prod.fst) :
    (mapSet m k v).map Prod.fst = m.map Prod.fst := by
  induction m with
  | nil => cases h
  | cons e rest ih =>
    obtain ⟨k0, v0⟩ := e
    by_cases hk : k0 = k
    · subst hk
      simp [mapSet]
    · have hr : k ∈ rest.map Prod.fst := by
        rcases List.mem_cons.mp h with heq | hm
        · exact absurd heq.symm (by simpa using hk)
        · exact hm
      simp [mapSet, hk, ih hr]

/-- Setting a fresh key appends it to the score-map key list. -/
theorem keys_mapSet_notMem (m : List (String × ScoreAcc)) (k : String) (v : ScoreAcc)
    (h : k ∉ m.map Prod.fst) :
    (mapSet m k v).map Prod.fst = m.map Prod.fst ++ [k] := by
  induction m with
  | nil => simp [mapSet]
  | cons e rest ih =>
    obtain ⟨k0, v0⟩ := e
    have hk : ¬ k0 = k := fun hcontr => h (by simp [hcontr])
    have hr : k ∉ rest.map Prod.fst := fun hm => h (by simp [hm])
    simp [mapSet, hk, ih hr]

/-- Folding entries preserves distinctness of the score-map keys. -/
theorem nodup_keys_foldl_scoreStep (entries : List ScoreEntry) :
    ∀ m : List (String × ScoreAcc), (m.map Prod.fst).Nodup →
      (((entries.foldl scoreStep m)).map Prod.fst).Nodup := by
  induction entries with
  | nil => intro m hm; exact hm
  | cons s t ih =>
    intro m hm
    rw [List.foldl_cons]
    apply ih
    unfold scoreStep
    by_cases hk : s.modelId ∈ m.map Prod.fst
    · rw [keys_mapSet_mem _ _ _ hk]
      exact hm
    · rw [keys_mapSet_notMem _ _ _ hk]
      rw [List.nodup_append]
      exact ⟨hm, List.nodup_singleton _, by
        intro a ha hmem
        simp only [List.mem_singleton] at hmem
        exact hk (hmem ▸ ha)⟩

/-- The aggregated score list has distinct backend identifiers. -/
theorem nodup_aggregatedScores (votes : List JudgeVote) :
    ((aggregatedScores votes).map (fun e => e.modelId)).Nodup := by
  have hmap : (aggregatedScores votes).map (fun e => e.modelId) =
      (scoreMapOf votes).map Prod.fst := by
    unfold aggregatedScores
    rw [List.map_map]
    rfl
  rw [hmap]
  unfold scoreMapOf
  rw [foldl_scores_flat]
  exact nodup_keys_foldl_scoreStep _ [] (by simp)

/-- The accumulated length splits as a per-vote sum. -/
theorem entriesFor_length (votes : List JudgeVote) (b : String) :
    (entriesFor votes b).length =
      (votes.map (fun v => (v.scores.filter (fun s => s.modelId = b)).length)).sum := by
  unfold entriesFor
  induction votes with
  | nil => rfl
  | cons v t ih =>
    rw [List.flatMap_cons, List.filter_append, List.length_append, List.map_cons,
      List.sum_cons, ih]

/-- With distinct per-vote backend identifiers, one vote contributes at most
one entry per backend. -/
theorem filter_modelId_length_of_nodup (scores : List ScoreEntry) (b : String)
    (h : (scores.map (fun s => s.modelId)).Nodup) :
    (scores.filter (fun s => s.modelId = b)).length =
      if b ∈ scores.map (fun s => s.modelId) then 1 else 0 := by
  induction scores with
  | nil => simp
  | cons s t ih =>
    rw [List.map_cons] at h
    have hnd := List.nodup_cons.mp h
    by_cases hs : s.modelId = b
    · rw [List.filter_cons_of_pos (by simp [hs])]
      subst hs
      rw [if_pos (by simp)]
      have hz : t.filter (fun x => x.modelId = s.modelId) = [] := by
        rw [List.filter_eq_nil_iff]
        intro x hx
        simp only [decide_eq_true_eq]
        intro hxe
        exact hnd.1 (by rw [← hxe]; exact List.mem_map_of_mem _ hx)
      rw [hz]
      rfl
    · rw [List.filter_cons_of_neg (by simp [hs]), ih hnd.2]
      by_cases hb : b ∈ t.map (fun s => s.modelId)
      · rw [if_pos hb, if_pos (by simp [hb])]
      · rw [if_neg hb, if_neg (by
          simp only [List.map_cons, List.mem_cons]
          rintro (hcontr | hcontr)
          · exact hs hcontr.symm
          · exact hb hcontr)]

/-- Summing per-vote indicator contributions counts the voting judges. -/
theorem sum_indicator_scored (votes : List JudgeVote) (b : String) :
    (votes.map (fun v =>
        if b ∈ v.scores.map (fun s => s.modelId) then 1 else 0)).sum =
      (votes.filter (fun v => b ∈ v.scores.map (fun s => s.modelId))).length := by
  induction votes with
  | nil => rfl
  | cons v t ih =>
    rw [List.map_cons, List.sum_cons, ih]
    by_cases h : b ∈ v.scores.map (fun s => s.modelId)
    · rw [if_pos h, List.filter_cons_of_pos (by simpa using h), List.length_cons]
      omega
    · rw [if_neg h, List.filter_cons_of_neg (by simpa using h)]
      omega

/-- The executable rounded average agrees with `round` of the rational
average: JS `Math.round x = ⌊x + 1/2⌋`, which is exactly Mathlib `round`. -/
theorem jsRoundDiv_eq_round (t : Int) (c : Nat) (hc : 0 < c) :
    jsRoundDiv t c = round ((t : ℚ) / (c : ℚ)) := by
  have hc0 : (c : ℚ) ≠ 0 := by
    exact_mod_cast Nat.pos_iff_ne_zero.mp hc
  rw [round_eq]
  have hceq : ((t : ℚ) / (c : ℚ) + 1 / 2) =
      (((2 * t + (c : Int)) : Int) : ℚ) / (((2 * c : Nat) : ℕ) : ℚ) := by
    push_cast
    field_simp
    ring
  rw [hceq, Rat.floor_intCast_div_natCast]
  unfold jsRoundDiv
  push_cast
  ring_nf

/-- C6.  For every backend scored by at least one surviving vote, the
aggregated score list holds an entry (unique by backend identifier) whose
score is the rounded average of that backend's scores across all score
entries naming it, and whose strengths/weaknesses are the first-occurrence
deduplicated unions across judges, capped at 3; when every judge names each
backend at most once, the number of contributing entries is exactly the
number of judges that scored the backend. -/
theorem score_aggregation_spec (votes : List JudgeVote) (b : String)
    (hb : entriesFor votes b ≠ []) :
    (∃ entry ∈ aggregatedScores votes,
      entry.modelId = b ∧
      entry.score = round (((((entriesFor votes b).map (fun s => s.score)).sum : ℤ) : ℚ) /
        ((entriesFor votes b).length : ℚ)) ∧
      entry.strengths =
        (jsSetDedup ((entriesFor votes b).flatMap (fun s => s.strengths))).take 3 ∧
      entry.weaknesses =
        (jsSetDedup ((entriesFor votes b).flatMap (fun s => s.weaknesses))).take 3 ∧
      entry.strengths.length ≤ 3 ∧ entry.weaknesses.length ≤ 3) ∧
    ((aggregatedScores votes).map (fun e => e.modelId)).Nodup ∧
    ((∀ v ∈ votes, (v.scores.map (fun s => s.modelId)).Nodup) →
      (entriesFor votes b).length =
        (votes.filter (fun v => b ∈ v.scores.map (fun s => s.modelId))).length) := by
  refine ⟨?_, nodup_aggregatedScores votes, ?_⟩
  · have hread : mapGet (scoreMapOf votes) b =
        some ⟨((entriesFor votes b).map (fun s => s.score)).sum,
              (entriesFor votes b).length,
              (entriesFor votes b).flatMap (fun s => s.strengths),
              (entriesFor votes b).flatMap (fun s => s.weaknesses)⟩ := by
      unfold scoreMapOf
      rw [foldl_scores_flat, mapGet_foldl_scoreStep]
      show (entriesFor votes b).foldl _ none = _
      exact foldl_addScore_none (entriesFor votes b) hb
    have hmem := mapGet_mem (scoreMapOf votes) b _ hread
    refine ⟨⟨b, jsRoundDiv
        ((entriesFor votes b).map (fun s => s.score)).sum (entriesFor votes b).length,
      (jsSetDedup ((entriesFor votes b).flatMap (fun s => s.strengths))).take 3,
      (jsSetDedup ((entriesFor votes b).flatMap (fun s => s.weaknesses))).take 3⟩,
      ?_, rfl, ?_, rfl, rfl, ?_, ?_⟩
    · unfold aggregatedScores
      exact List.mem_map_of_mem _ hmem
    · have hcpos : 0 < (entriesFor votes b).length :=
        List.length_pos.mpr hb
      exact jsRoundDiv_eq_round _ _ hcpos
    · show ((jsSetDedup ((entriesFor votes b).flatMap
          (fun s => s.strengths))).take 3).length ≤ 3
      rw [List.length_take]
      exact min_le_left _ _
    · show ((jsSetDedup ((entriesFor votes b).flatMap
          (fun s => s.weaknesses))).take 3).length ≤ 3
      rw [List.length_take]
      exact min_le_left _ _
  · intro hnd
    rw [entriesFor_length]
    rw [List.map_congr_left (fun v hv =>
      filter_modelId_length_of_nodup v.scores b (hnd v hv))]
    exact sum_indicator_scored votes b

/-- C6 witness: two judges scoring backend A with 80 and 90 average to 85,
with strengths deduplicated across judges and capped. -/
theorem score_aggregation_spec_witness :
    entriesFor
      [⟨"j1", "Judge 1", "A", "r1", [⟨"A", 80, ["clear"], []⟩, ⟨"B", 60, [], ["vague"]⟩]⟩,
        ⟨"j2", "Judge 2", "A", "r2", [⟨"A", 90, ["clear", "deep"], []⟩]⟩] "A" ≠ [] ∧
    (∃ entry ∈ aggregatedScores
        [⟨"j1", "Judge 1", "A", "r1", [⟨"A", 80, ["clear"], []⟩, ⟨"B", 60, [], ["vague"]⟩]⟩,
          ⟨"j2", "Judge 2", "A", "r2", [⟨"A", 90, ["clear", "deep"], []⟩]⟩],
      entry.modelId = "A" ∧
      entry.score = round (((((entriesFor
          [⟨"j1", "Judge 1", "A", "r1", [⟨"A", 80, ["clear"], []⟩, ⟨"B", 60, [], ["vague"]⟩]⟩,
            ⟨"j2", "Judge 2", "A", "r2", [⟨"A", 90, ["clear", "deep"], []⟩]⟩] "A").map
            (fun s => s.score)).sum : ℤ) : ℚ) /
        ((entriesFor
          [⟨"j1", "Judge 1", "A", "r1", [⟨"A", 80, ["clear"], []⟩, ⟨"B", 60, [], ["vague"]⟩]⟩,
            ⟨"j2", "Judge 2", "A", "r2", [⟨"A", 90, ["clear", "deep"], []⟩]⟩] "A").length : ℚ)) ∧
      entry.strengths =
        (jsSetDedup ((entriesFor
          [⟨"j1", "Judge 1", "A", "r1", [⟨"A", 80, ["clear"], []⟩, ⟨"B", 60, [], ["vague"]⟩]⟩,
            ⟨"j2", "Judge 2", "A", "r2", [⟨"A", 90, ["clear", "deep"], []⟩]⟩] "A").flatMap
            (fun s => s.strengths))).take 3 ∧
      entry.weaknesses =
        (jsSetDedup ((entriesFor
          [⟨"j1", "Judge 1", "A", "r1", [⟨"A", 80, ["clear"], []⟩, ⟨"B", 60, [], ["vague"]⟩]⟩,
            ⟨"j2", "Judge 2", "A", "r2", [⟨"A", 90, ["clear", "deep"], []⟩]⟩] "A").flatMap
            (fun s => s.weaknesses))).take 3 ∧
      entry.strengths.length ≤ 3 ∧ entry.weaknesses.length ≤ 3) :=
  ⟨by decide,
    (score_aggregation_spec
      [⟨"j1", "Judge 1", "A", "r1", [⟨"A", 80, ["clear"], []⟩, ⟨"B", 60, [], ["vague"]⟩]⟩,
        ⟨"j2", "Judge 2", "A", "r2", [⟨"A", 90, ["clear", "deep"], []⟩]⟩] "A"
      (by decide)).1⟩

end Consensus
